import Mathlib

/-!
Verification of the s4cmb scan-trajectory and systematics engines.

This file embeds, in Lean, the parts of `s4cmb/scanning_strategy.py` and
`s4cmb/systematics.py` needed to settle the frozen claims about the spec:

* the Gregorian/MJD date conversions (`greg_to_mjd`, `mjd_to_greg`) together
  with models of the SLALIB routines they call (`sla_dtf2d`, `sla_cldj`,
  `sla_djcl`, `sla_dd2tf`);
* the per-CES trajectory synthesis of `ScanningStrategy.run_one_scan`
  (azimuth stepping, the mutable ephem date cursor, the RA/Dec arrays);
* `convolve_focalplane`;
* the crosstalk injections and `modify_beam_offsets` of `systematics.py`.

Python floats are modelled by `ℚ` (every IEEE double is a rational number;
the claims settled here are structural / exact-arithmetic ones).  External
numeric oracles (pyephem's `radec_of` and `sidereal_time`, numpy's RNG
draws, healpy's pixelisation, `cos`/`sin` values) are taken as explicit
function parameters, so every definition stays executable.
-/

/-! ### Fortran integer arithmetic

Fortran's `/` and `MOD` on integers truncate toward zero, which is Lean's
`Int.tdiv` / `Int.tmod`.  For nonnegative operands they agree with the
Euclidean `/` and `%` that `omega` understands. -/

def ftDiv (a b : Int) : Int := Int.tdiv a b

def ftMod (a b : Int) : Int := Int.tmod a b

theorem ftDiv_eq_ediv (a b : Int) (ha : 0 ≤ a) (hb : 0 ≤ b) : ftDiv a b = a / b :=
  Int.tdiv_eq_ediv ha hb

theorem ftMod_eq_emod (a b : Int) (ha : 0 ≤ a) (hb : 0 ≤ b) : ftMod a b = a % b :=
  Int.tmod_eq_emod ha hb

/-- Fortran `ANINT` (round to nearest, halves away from zero), on rationals. -/
def anint (x : ℚ) : Int := if 0 ≤ x then ⌊x + 1/2⌋ else -⌊-x + 1/2⌋

theorem anint_intCast (n : Int) : anint (n : ℚ) = n := by
  unfold anint
  rcases le_or_lt 0 (n : ℚ) with h | h
  · rw [if_pos h, Int.floor_int_add]
    norm_num
  · rw [if_neg (not_le.mpr h)]
    have hn : -(n : ℚ) + 1/2 = ((-n : Int) : ℚ) + 1/2 := by push_cast; ring
    rw [hn, Int.floor_int_add]
    norm_num

/-! ### SLALIB models

`sla_cldj` converts a Gregorian calendar date to a Modified Julian Date;
`sla_djcl` is its inverse; `sla_dtf2d` turns hours/minutes/seconds into a
day fraction; `sla_dd2tf` is its inverse (here specialised to `NDP = 2`,
the only way the repository calls it).  These model the SLALIB Fortran
sources used through `pyslalib`; integer division/modulus is Fortran's
(truncating) one, written `ftDiv`/`ftMod`. -/

/-- Month lengths table of `sla_cldj` (`MTAB`), with its leap-year rule:
Feb has 29 days iff `MOD(IY,4) = 0` and not (`MOD(IY,100) = 0` and
`MOD(IY,400) ≠ 0`). -/
def mtab (y m : Int) : Int :=
  if m = 2 then
    if ftMod y 4 = 0 ∧ ¬(ftMod y 100 = 0 ∧ ftMod y 400 ≠ 0) then 29 else 28
  else [31, 28, 31, 30, 31, 30, 31, 31, 30, 31, 30, 31].getD (m.toNat - 1) 0

/-- The MJD formula of `sla_cldj` (Fortran truncating division). -/
def cldjNum (y m d : Int) : Int :=
  ftDiv (1461 * (y + 4800 + ftDiv (m - 14) 12)) 4
  + ftDiv (367 * (m - 2 - 12 * ftDiv (m - 14) 12)) 12
  - ftDiv (3 * (ftDiv (y + 4900 + ftDiv (m - 14) 12) 100)) 4
  + d - 2432076

/-- Model of `sla_cldj`: returns `(DJM, J)` where `J` is the status
(0 ok, 1 bad year, 2 bad month, 3 bad day).  For a bad day the Fortran
still computes `DJM`; for a bad year/month `DJM` is left unassigned
(modelled as 0 -- no theorem below relies on it). -/
def slaCldj (y m d : Int) : Int × Nat :=
  if y < -4699 then (0, 1)
  else if ¬(1 ≤ m ∧ m ≤ 12) then (0, 2)
  else (cldjNum y m d, if d < 1 ∨ d > mtab y m then 3 else 0)

/-- Model of `sla_dtf2d`: `(DAYS, J)`.  The Fortran computes `DAYS`
whether or not the fields validate. -/
def slaDtf2d (h m s : Int) : ℚ × Nat :=
  ((60 * (60 * (h : ℚ) + (m : ℚ)) + (s : ℚ)) / 86400,
   if h < 0 ∨ 23 < h then 1 else if m < 0 ∨ 59 < m then 2
   else if s < 0 ∨ 60 ≤ s then 3 else 0)

/-- `JD` of `sla_djcl`: `NINT(D)+2400001` where `D = ANINT(DJM-F)` is the
integer day below `DJM`. -/
def djJD (djm : Int) : Int := djm + 2400001

/-- The `(4*JD-17918)/146097` quotient of `sla_djcl`. -/
def djQC (djm : Int) : Int := ftDiv (4 * djJD djm - 17918) 146097

/-- The century correction `((6*Q)/4+1)/2` of `sla_djcl`. -/
def djV (djm : Int) : Int := ftDiv (ftDiv (6 * djQC djm) 4 + 1) 2

/-- `N4` of `sla_djcl`. -/
def djN4 (djm : Int) : Int := 4 * (djJD djm + djV djm - 37)

/-- `ND10` of `sla_djcl`. -/
def djND10 (djm : Int) : Int := 10 * ftDiv (ftMod (djN4 djm - 237) 1461) 4 + 5

/-- The year computed by `sla_djcl`. -/
def djIY (djm : Int) : Int := ftDiv (djN4 djm) 1461 - 4712

/-- The month computed by `sla_djcl`. -/
def djIM (djm : Int) : Int := ftMod (ftDiv (djND10 djm) 306 + 2) 12 + 1

/-- The day-of-month computed by `sla_djcl`. -/
def djID (djm : Int) : Int := ftDiv (ftMod (djND10 djm) 306) 10 + 1

/-- Model of `sla_dd2tf` at `NDP = 2` for nonnegative `DAYS`:
returns `(IHMSF(1..4))`, i.e. hours, minutes, seconds, centiseconds,
via `A = ANINT(100 * 86400 * DAYS)` followed by the `AINT` cascade. -/
def slaDd2tf2 (days : ℚ) : Int × Int × Int × Int :=
  let a := anint (100 * 86400 * days)
  (a / 360000, a % 360000 / 6000, a % 360000 % 6000 / 100, a % 360000 % 6000 % 100)

/-! ### The repository's date routines (`scanning_strategy.py`)

`greg_to_mjd` parses fixed-width fields out of a `YYYYMMDD_HHMMSS` string
with Python's `int(...)` and combines `sla_dtf2d` and `sla_cldj`.
It binds the SLALIB status values but never checks them.
`mjd_to_greg` calls `sla_djcl`; on a bad date it executes
`raise ValueError(BadMJD)` where `BadMJD` is an undefined name, so Python
actually raises a `NameError`.  On success it formats with
`'{:4d}{:2d}{:2d}_{:2d}{:2d}{:2d}'` and replaces spaces by `'0'`. -/

/-- Value of a decimal digit character; `none` on a non-digit (Python's
`int()` would raise `ValueError`; the strings in the claims are all-digit). -/
def digVal (c : Char) : Option Int :=
  if 48 ≤ c.toNat ∧ c.toNat ≤ 57 then some ((c.toNat : Int) - 48) else none

/-- `int(greg[i:i+2])` for digit characters. -/
def parse2 (g : List Char) (i : Nat) : Option Int := do
  let a ← g[i]? >>= digVal
  let b ← g[i+1]? >>= digVal
  pure (10 * a + b)

/-- `int(greg[:4])` for digit characters. -/
def parse4 (g : List Char) : Option Int := do
  let a ← parse2 g 0
  let b ← parse2 g 2
  pure (100 * a + b)

/-- The fixed-width field extraction of `greg_to_mjd`:
`year = int(greg[:4])`, `month = int(greg[4:6])`, `day = int(greg[6:8])`,
`hour = int(greg[9:11])`, `minute = int(greg[11:13])`,
`second = int(greg[13:15])`. -/
def parseGreg (g : List Char) : Option (Int × Int × Int × Int × Int × Int) := do
  let y ← parse4 g
  let mo ← parse2 g 4
  let d ← parse2 g 6
  let h ← parse2 g 9
  let mi ← parse2 g 11
  let s ← parse2 g 13
  pure (y, mo, d, h, mi, s)

/-- `greg_to_mjd`.  The two SLALIB status values are bound (`fracday,
status = ...`; `mjd, status = ...`) but never inspected, so the sum is
returned even for an unrepresentable calendar date. -/
def greg_to_mjd (g : String) : Option ℚ :=
  match parseGreg g.data with
  | none => none
  | some (y, mo, d, h, mi, s) =>
    some (((slaCldj y mo d).1 : ℚ) + (slaDtf2d h mi s).1)

/-- The Python exception surfaced by `mjd_to_greg` on a bad MJD: the code
says `raise ValueError(BadMJD)` but `BadMJD` is an undefined name, so the
interpreter raises `NameError` while evaluating the argument. -/
inductive PyErr
  | nameError
deriving DecidableEq, Repr

/-- Digit character for `0 ≤ n ≤ 9`. -/
def digChar (n : Int) : Char := Char.ofNat (48 + n.toNat)

/-- Model of `'{:2d}'.format(n).replace(' ', '0')` for `0 ≤ n ≤ 99`. -/
def pad2 (n : Int) : List Char := [digChar (n / 10), digChar (n % 10)]

/-- Model of `'{:4d}'.format(n).replace(' ', '0')` for `0 ≤ n ≤ 9999`. -/
def pad4 (n : Int) : List Char :=
  [digChar (n / 1000), digChar (n / 100 % 10), digChar (n / 10 % 10), digChar (n % 10)]

/-- `mjd_to_greg`.  `sla_djcl` reports a bad date exactly when
`DJM ≤ -2395520` or `DJM ≥ 10^9`; the day/fraction split is
`F = MOD(DJM,1D0)` (made nonnegative) and `D = ANINT(DJM-F)`, i.e. the
floor of `DJM`; then `sla_dd2tf(2, fracday)` and the zero-padded format. -/
def mjd_to_greg (mjd : ℚ) : Except PyErr String :=
  if mjd ≤ -2395520 ∨ (10 ^ 9 : ℚ) ≤ mjd then .error .nameError
  else
    .ok (String.mk (pad4 (djIY ⌊mjd⌋) ++ pad2 (djIM ⌊mjd⌋) ++ pad2 (djID ⌊mjd⌋) ++ ['_']
      ++ pad2 (slaDd2tf2 (mjd - ⌊mjd⌋)).1 ++ pad2 (slaDd2tf2 (mjd - ⌊mjd⌋)).2.1
      ++ pad2 (slaDd2tf2 (mjd - ⌊mjd⌋)).2.2.1))

/-- The formatted Gregorian string for a field tuple; a string is a valid
1-second-resolution Gregorian date exactly when it is `gregString` of
in-range fields accepted by `sla_cldj`. -/
def gregString (y mo d h mi s : Int) : String :=
  String.mk (pad4 y ++ pad2 mo ++ pad2 d ++ ['_'] ++ pad2 h ++ pad2 mi ++ pad2 s)

/-! ### Round-trip analysis of the calendar conversions

For a fixed month the truncating divisions in `cldjNum` and in the
`sla_djcl` chain become Euclidean divisions of nonnegative quantities; the
lemmas below perform that conversion and then invert the Hatcher-style
day-number formula month by month. -/

/-- `cldjNum` with the month folded in: for month `m ≥ 3` it equals
`cldjE y B d` and for `m ∈ {1, 2}` it equals `cldjE (y-1) B d`, where `B`
is the month constant `ftDiv (367*(m-2-12*K)) 12`. -/
def cldjE (z B d : Int) : Int :=
  1461 * (z + 4800) / 4 + B - 3 * ((z + 4900) / 100) / 4 + d - 2432076

theorem ediv_eq_of_decomp (n k q r : Int) (hk : 0 < k) (h : n = k * q + r)
    (h0 : 0 ≤ r) (h1 : r < k) : n / k = q := by
  subst h
  rw [show k * q + r = r + q * k from by ring,
      Int.add_mul_ediv_right _ _ (ne_of_gt hk), Int.ediv_eq_zero_of_lt h0 h1]
  ring

theorem emod_two_cases (n : Int) : n % 2 = 0 ∨ n % 2 = 1 := by omega

theorem emod_eq_of_decomp (n k q r : Int) (hk : 0 < k) (h : n = k * q + r)
    (h0 : 0 ≤ r) (h1 : r < k) : n % k = r := by
  subst h
  rw [show k * q + r = r + q * k from by ring, Int.add_mul_emod_self,
      Int.emod_eq_of_lt h0 h1]

theorem djQC_eq (djm : Int) (h : -679300 ≤ djm) :
    djQC djm = (4 * (djm + 2400001) - 17918) / 146097 := by
  unfold djQC djJD
  exact ftDiv_eq_ediv _ _ (by omega) (by omega)

theorem djV_eq (djm : Int) (h : -679300 ≤ djm) :
    djV djm = (6 * djQC djm / 4 + 1) / 2 := by
  have h0 : 0 ≤ djQC djm := by rw [djQC_eq djm h]; omega
  unfold djV
  rw [ftDiv_eq_ediv (6 * djQC djm) 4 (by omega) (by omega),
      ftDiv_eq_ediv (6 * djQC djm / 4 + 1) 2 (by omega) (by omega)]

theorem djN4_eq (djm : Int) : djN4 djm = 4 * (djm + 2400001 + djV djm - 37) := rfl

theorem djIY_eq (djm : Int) (h0 : 0 ≤ djN4 djm) :
    djIY djm = djN4 djm / 1461 - 4712 := by
  unfold djIY
  rw [ftDiv_eq_ediv _ _ h0 (by omega)]

theorem djND10_eq (djm : Int) (h0 : 0 ≤ djN4 djm - 237) :
    djND10 djm = 10 * ((djN4 djm - 237) % 1461 / 4) + 5 := by
  unfold djND10
  rw [ftMod_eq_emod _ _ h0 (by omega), ftDiv_eq_ediv _ _ (by omega) (by omega)]

theorem djIM_eq (djm : Int) (h0 : 0 ≤ djND10 djm) :
    djIM djm = (djND10 djm / 306 + 2) % 12 + 1 := by
  unfold djIM
  rw [ftDiv_eq_ediv _ _ h0 (by omega), ftMod_eq_emod _ _ (by omega) (by omega)]

theorem djID_eq (djm : Int) (h0 : 0 ≤ djND10 djm) :
    djID djm = djND10 djm % 306 / 10 + 1 := by
  unfold djID
  rw [ftMod_eq_emod _ _ h0 (by omega), ftDiv_eq_ediv _ _ (by omega) (by omega)]

theorem cent_div_bridge (z : Int) :
    3 * ((z + 4900) / 100) / 4 = 3 * (z / 100 / 4) + z / 100 % 4 + 36 := by
  omega

theorem quad_div_bridge (z : Int) :
    1461 * (z + 4800) / 4 = 36525 * (z / 100) + 365 * (z % 100) + z % 100 / 4 + 1753200 := by
  omega

/-- Inversion of the day-number formula, uniformly in the month constant
`B`: `sla_djcl` applied to `cldjE z B d` recovers the year (`z`, or `z+1`
for the Jan/Feb constants `B ∈ {336, 367}`) and yields
`ND10 = 10*(d+B-31)+5`, from which month and day follow.  The two `hedge`
hypotheses exclude the unrepresentable corner (Feb 29 of a non-leap year at
a century boundary); every valid date satisfies them. -/
theorem djcl_core (z B d : Int) (hz : -1 ≤ z) (hz2 : z ≤ 9999)
    (hB : 30 ≤ B) (hB2 : B ≤ 367) (hd : 1 ≤ d) (hd2 : d ≤ 31)
    (hedge1 : z % 100 = 99 → 4 * (d + B) < 1582 + z / 100 % 4)
    (hedge2 : 4 * (d + B) ≤ 1581 + z % 100 % 4) :
    (-679300 ≤ cldjE z B d ∧ cldjE z B d ≤ 2973600)
    ∧ (B ≤ 305 → djIY (cldjE z B d) = z)
    ∧ (336 ≤ B → djIY (cldjE z B d) = z + 1)
    ∧ djND10 (cldjE z B d) = 10 * (d + B - 31) + 5 := by
  have hS : 4 * (z % 100 / 4) - z % 100 + z % 100 % 4 = 0 := by omega
  have hres1 : 0 ≤ 1460 * (z % 100) + 4 * (z % 100 / 4) + 4 * (d + B) - 121 - z / 100 % 4
      ∧ 1460 * (z % 100) + 4 * (z % 100 / 4) + 4 * (d + B) - 121 - z / 100 % 4 ≤ 146096 := by
    constructor <;> omega
  have h2 := cent_div_bridge z
  have h3 := quad_div_bridge z
  have hCform : cldjE z B d = 146097 * (z / 100 / 4) + 36524 * (z / 100 % 4)
      + 365 * (z % 100) + z % 100 / 4 + d + B - 678912 := by
    unfold cldjE; omega
  clear h2 h3
  have hbounds : -679300 ≤ cldjE z B d ∧ cldjE z B d ≤ 2973600 := by
    rw [hCform]; constructor <;> omega
  have hnum : 4 * (cldjE z B d + 2400001) - 17918
      = 146097 * (4 * (z / 100 / 4) + z / 100 % 4 + 47)
        + (1460 * (z % 100) + 4 * (z % 100 / 4) + 4 * (d + B) - 121 - z / 100 % 4) := by
    rw [hCform]; ring
  have hq : djQC (cldjE z B d) = 4 * (z / 100 / 4) + z / 100 % 4 + 47 := by
    rw [djQC_eq _ hbounds.1]
    exact ediv_eq_of_decomp _ _ _ _ (by norm_num) hnum hres1.1 (by omega)
  have hv : djV (cldjE z B d) = 3 * (z / 100 / 4) + 35 + z / 100 % 4 := by
    rw [djV_eq _ hbounds.1, hq]; omega
  have hn4 : djN4 (cldjE z B d) = 584400 * (z / 100 / 4) + 146100 * (z / 100 % 4)
      + 1460 * (z % 100) + 4 * (z % 100 / 4) + 4 * d + 4 * B + 6884348 := by
    rw [djN4_eq, hv, hCform]; ring
  refine ⟨hbounds, ?_, ?_, ?_⟩
  · intro hB3
    have hiy : 584400 * (z / 100 / 4) + 146100 * (z / 100 % 4) + 1460 * (z % 100)
        + 4 * (z % 100 / 4) + 4 * d + 4 * B + 6884348
        = 1461 * (400 * (z / 100 / 4) + 100 * (z / 100 % 4) + z % 100 + 4712)
          + (4 * (d + B) + 116 - z % 100 % 4) := by
      have := hS; ring_nf; omega
    rw [djIY_eq _ (by omega), hn4]
    rw [ediv_eq_of_decomp _ 1461 (400 * (z / 100 / 4) + 100 * (z / 100 % 4) + z % 100 + 4712)
          (4 * (d + B) + 116 - z % 100 % 4) (by norm_num) hiy (by omega) (by omega)]
    omega
  · intro hB3
    have hiy : 584400 * (z / 100 / 4) + 146100 * (z / 100 % 4) + 1460 * (z % 100)
        + 4 * (z % 100 / 4) + 4 * d + 4 * B + 6884348
        = 1461 * (400 * (z / 100 / 4) + 100 * (z / 100 % 4) + z % 100 + 4712 + 1)
          + (4 * (d + B) + 116 - z % 100 % 4 - 1461) := by
      have := hS; ring_nf; omega
    rw [djIY_eq _ (by omega), hn4]
    rw [ediv_eq_of_decomp _ 1461 (400 * (z / 100 / 4) + 100 * (z / 100 % 4) + z % 100 + 4712 + 1)
          (4 * (d + B) + 116 - z % 100 % 4 - 1461) (by norm_num) hiy (by omega) (by omega)]
    omega
  · have hsplit : 584400 * (z / 100 / 4) + 146100 * (z / 100 % 4) + 1460 * (z % 100)
        + 4 * (z % 100 / 4) + 4 * d + 4 * B + 6884348 - 237
        = 1461 * (400 * (z / 100 / 4) + 100 * (z / 100 % 4) + z % 100 + 4712)
          + (4 * (d + B - 31) + (3 - z % 100 % 4)) := by
      have := hS; ring_nf; omega
    have hw : (djN4 (cldjE z B d) - 237) % 1461 = 4 * (d + B - 31) + (3 - z % 100 % 4) := by
      rw [hn4]
      exact emod_eq_of_decomp _ _ _ _ (by norm_num) hsplit (by omega) (by omega)
    rw [djND10_eq _ (by omega), hw]
    omega

/-! Month-by-month evaluation of `cldjNum`: the Fortran divisions on the
month argument become constants, and the remaining truncating divisions of
nonnegative quantities become Euclidean ones. -/

theorem cldjNum_eval_1 (y d : Int) (hy : 0 ≤ y) : cldjNum y 1 d = cldjE (y - 1) 336 d := by
  unfold cldjNum cldjE
  rw [show ftDiv ((1 : Int) - 14) 12 = -1 from by decide]
  rw [show ftDiv (367 * ((1 : Int) - 2 - 12 * -1)) 12 = 336 from by decide]
  rw [ftDiv_eq_ediv (1461 * (y + 4800 + -1)) 4 (by omega) (by omega),
      ftDiv_eq_ediv (y + 4900 + -1) 100 (by omega) (by omega),
      ftDiv_eq_ediv (3 * ((y + 4900 + -1) / 100)) 4 (by omega) (by omega)]
  ring_nf

theorem cldjNum_eval_2 (y d : Int) (hy : 0 ≤ y) : cldjNum y 2 d = cldjE (y - 1) 367 d := by
  unfold cldjNum cldjE
  rw [show ftDiv ((2 : Int) - 14) 12 = -1 from by decide]
  rw [show ftDiv (367 * ((2 : Int) - 2 - 12 * -1)) 12 = 367 from by decide]
  rw [ftDiv_eq_ediv (1461 * (y + 4800 + -1)) 4 (by omega) (by omega),
      ftDiv_eq_ediv (y + 4900 + -1) 100 (by omega) (by omega),
      ftDiv_eq_ediv (3 * ((y + 4900 + -1) / 100)) 4 (by omega) (by omega)]
  ring_nf

theorem cldjNum_eval_3 (y d : Int) (hy : 0 ≤ y) : cldjNum y 3 d = cldjE y 30 d := by
  unfold cldjNum cldjE
  rw [show ftDiv ((3 : Int) - 14) 12 = 0 from by decide]
  rw [show ftDiv (367 * ((3 : Int) - 2 - 12 * 0)) 12 = 30 from by decide]
  rw [ftDiv_eq_ediv (1461 * (y + 4800 + 0)) 4 (by omega) (by omega),
      ftDiv_eq_ediv (y + 4900 + 0) 100 (by omega) (by omega),
      ftDiv_eq_ediv (3 * ((y + 4900 + 0) / 100)) 4 (by omega) (by omega)]
  ring_nf

theorem cldjNum_eval_4 (y d : Int) (hy : 0 ≤ y) : cldjNum y 4 d = cldjE y 61 d := by
  unfold cldjNum cldjE
  rw [show ftDiv ((4 : Int) - 14) 12 = 0 from by decide]
  rw [show ftDiv (367 * ((4 : Int) - 2 - 12 * 0)) 12 = 61 from by decide]
  rw [ftDiv_eq_ediv (1461 * (y + 4800 + 0)) 4 (by omega) (by omega),
      ftDiv_eq_ediv (y + 4900 + 0) 100 (by omega) (by omega),
      ftDiv_eq_ediv (3 * ((y + 4900 + 0) / 100)) 4 (by omega) (by omega)]
  ring_nf

theorem cldjNum_eval_5 (y d : Int) (hy : 0 ≤ y) : cldjNum y 5 d = cldjE y 91 d := by
  unfold cldjNum cldjE
  rw [show ftDiv ((5 : Int) - 14) 12 = 0 from by decide]
  rw [show ftDiv (367 * ((5 : Int) - 2 - 12 * 0)) 12 = 91 from by decide]
  rw [ftDiv_eq_ediv (1461 * (y + 4800 + 0)) 4 (by omega) (by omega),
      ftDiv_eq_ediv (y + 4900 + 0) 100 (by omega) (by omega),
      ftDiv_eq_ediv (3 * ((y + 4900 + 0) / 100)) 4 (by omega) (by omega)]
  ring_nf

theorem cldjNum_eval_6 (y d : Int) (hy : 0 ≤ y) : cldjNum y 6 d = cldjE y 122 d := by
  unfold cldjNum cldjE
  rw [show ftDiv ((6 : Int) - 14) 12 = 0 from by decide]
  rw [show ftDiv (367 * ((6 : Int) - 2 - 12 * 0)) 12 = 122 from by decide]
  rw [ftDiv_eq_ediv (1461 * (y + 4800 + 0)) 4 (by omega) (by omega),
      ftDiv_eq_ediv (y + 4900 + 0) 100 (by omega) (by omega),
      ftDiv_eq_ediv (3 * ((y + 4900 + 0) / 100)) 4 (by omega) (by omega)]
  ring_nf

theorem cldjNum_eval_7 (y d : Int) (hy : 0 ≤ y) : cldjNum y 7 d = cldjE y 152 d := by
  unfold cldjNum cldjE
  rw [show ftDiv ((7 : Int) - 14) 12 = 0 from by decide]
  rw [show ftDiv (367 * ((7 : Int) - 2 - 12 * 0)) 12 = 152 from by decide]
  rw [ftDiv_eq_ediv (1461 * (y + 4800 + 0)) 4 (by omega) (by omega),
      ftDiv_eq_ediv (y + 4900 + 0) 100 (by omega) (by omega),
      ftDiv_eq_ediv (3 * ((y + 4900 + 0) / 100)) 4 (by omega) (by omega)]
  ring_nf

theorem cldjNum_eval_8 (y d : Int) (hy : 0 ≤ y) : cldjNum y 8 d = cldjE y 183 d := by
  unfold cldjNum cldjE
  rw [show ftDiv ((8 : Int) - 14) 12 = 0 from by decide]
  rw [show ftDiv (367 * ((8 : Int) - 2 - 12 * 0)) 12 = 183 from by decide]
  rw [ftDiv_eq_ediv (1461 * (y + 4800 + 0)) 4 (by omega) (by omega),
      ftDiv_eq_ediv (y + 4900 + 0) 100 (by omega) (by omega),
      ftDiv_eq_ediv (3 * ((y + 4900 + 0) / 100)) 4 (by omega) (by omega)]
  ring_nf

theorem cldjNum_eval_9 (y d : Int) (hy : 0 ≤ y) : cldjNum y 9 d = cldjE y 214 d := by
  unfold cldjNum cldjE
  rw [show ftDiv ((9 : Int) - 14) 12 = 0 from by decide]
  rw [show ftDiv (367 * ((9 : Int) - 2 - 12 * 0)) 12 = 214 from by decide]
  rw [ftDiv_eq_ediv (1461 * (y + 4800 + 0)) 4 (by omega) (by omega),
      ftDiv_eq_ediv (y + 4900 + 0) 100 (by omega) (by omega),
      ftDiv_eq_ediv (3 * ((y + 4900 + 0) / 100)) 4 (by omega) (by omega)]
  ring_nf

theorem cldjNum_eval_10 (y d : Int) (hy : 0 ≤ y) : cldjNum y 10 d = cldjE y 244 d := by
  unfold cldjNum cldjE
  rw [show ftDiv ((10 : Int) - 14) 12 = 0 from by decide]
  rw [show ftDiv (367 * ((10 : Int) - 2 - 12 * 0)) 12 = 244 from by decide]
  rw [ftDiv_eq_ediv (1461 * (y + 4800 + 0)) 4 (by omega) (by omega),
      ftDiv_eq_ediv (y + 4900 + 0) 100 (by omega) (by omega),
      ftDiv_eq_ediv (3 * ((y + 4900 + 0) / 100)) 4 (by omega) (by omega)]
  ring_nf

theorem cldjNum_eval_11 (y d : Int) (hy : 0 ≤ y) : cldjNum y 11 d = cldjE y 275 d := by
  unfold cldjNum cldjE
  rw [show ftDiv ((11 : Int) - 14) 12 = 0 from by decide]
  rw [show ftDiv (367 * ((11 : Int) - 2 - 12 * 0)) 12 = 275 from by decide]
  rw [ftDiv_eq_ediv (1461 * (y + 4800 + 0)) 4 (by omega) (by omega),
      ftDiv_eq_ediv (y + 4900 + 0) 100 (by omega) (by omega),
      ftDiv_eq_ediv (3 * ((y + 4900 + 0) / 100)) 4 (by omega) (by omega)]
  ring_nf

theorem cldjNum_eval_12 (y d : Int) (hy : 0 ≤ y) : cldjNum y 12 d = cldjE y 305 d := by
  unfold cldjNum cldjE
  rw [show ftDiv ((12 : Int) - 14) 12 = 0 from by decide]
  rw [show ftDiv (367 * ((12 : Int) - 2 - 12 * 0)) 12 = 305 from by decide]
  rw [ftDiv_eq_ediv (1461 * (y + 4800 + 0)) 4 (by omega) (by omega),
      ftDiv_eq_ediv (y + 4900 + 0) 100 (by omega) (by omega),
      ftDiv_eq_ediv (3 * ((y + 4900 + 0) / 100)) 4 (by omega) (by omega)]
  ring_nf


/-- `sla_djcl` inverts `sla_cldj` on every representable date with a
four-digit year: dispatch over the twelve months. -/
theorem djcl_cldj_roundtrip (y m d : Int) (hy : 0 ≤ y) (hy2 : y ≤ 9999)
    (hst : (slaCldj y m d).2 = 0) :
    djIY (cldjNum y m d) = y ∧ djIM (cldjNum y m d) = m ∧ djID (cldjNum y m d) = d
    ∧ -679300 ≤ cldjNum y m d ∧ cldjNum y m d ≤ 2973600 := by
  rw [slaCldj, if_neg (by omega : ¬ y < -4699)] at hst
  by_cases hm : 1 ≤ m ∧ m ≤ 12
  swap
  · rw [if_pos hm] at hst; exact absurd hst (by norm_num)
  rw [if_neg (by exact not_not_intro hm)] at hst
  have hdd : ¬(d < 1 ∨ d > mtab y m) := by
    intro hcon
    rw [if_pos hcon] at hst
    exact absurd hst (by norm_num)
  push_neg at hdd
  obtain ⟨hd, hd2⟩ := hdd
  obtain ⟨hm1, hm2⟩ := hm
  interval_cases m
  · -- month 1
    rw [cldjNum_eval_1 y d hy]
    rw [show mtab y 1 = 31 from rfl] at hd2
    have hcore := djcl_core (y - 1) 336 d (by omega) (by omega) (by norm_num) (by norm_num)
      hd (by omega) (by omega) (by omega)
    have hnd := hcore.2.2.2
    refine ⟨by have := hcore.2.2.1 (by norm_num); omega, ?_, ?_, hcore.1.1, hcore.1.2⟩
    · rw [djIM_eq _ (by rw [hnd]; omega), hnd,
          ediv_eq_of_decomp (10 * (d + 336 - 31) + 5) 306 10 (10 * d - 5)
            (by norm_num) (by ring) (by omega) (by omega)]
      norm_num
    · rw [djID_eq _ (by rw [hnd]; omega), hnd,
          emod_eq_of_decomp (10 * (d + 336 - 31) + 5) 306 10 (10 * d - 5)
            (by norm_num) (by ring) (by omega) (by omega),
          ediv_eq_of_decomp (10 * d - 5) 10 (d - 1) (5)
            (by norm_num) (by ring) (by norm_num) (by norm_num)]
      ring
  · -- February
    rw [cldjNum_eval_2 y d hy]
    have hm4 : ftMod y 4 = y % 4 := ftMod_eq_emod _ _ hy (by norm_num)
    have hm100 : ftMod y 100 = y % 100 := ftMod_eq_emod _ _ hy (by norm_num)
    have hm400 : ftMod y 400 = y % 400 := ftMod_eq_emod _ _ hy (by norm_num)
    rw [show mtab y 2 = if y % 4 = 0 ∧ ¬(y % 100 = 0 ∧ y % 400 ≠ 0) then 29 else 28 from by
          rw [mtab, if_pos rfl, hm4, hm100, hm400]] at hd2
    by_cases hleap : y % 4 = 0 ∧ ¬(y % 100 = 0 ∧ y % 400 ≠ 0)
    · rw [if_pos hleap] at hd2
      obtain ⟨hl1, hl2⟩ := hleap
      have hcore := djcl_core (y - 1) 367 d (by omega) (by omega) (by norm_num) (by norm_num)
        hd (by omega) (by omega) (by omega)
      have hnd := hcore.2.2.2
      refine ⟨by have := hcore.2.2.1 (by norm_num); omega, ?_, ?_, hcore.1.1, hcore.1.2⟩
      · rw [djIM_eq _ (by rw [hnd]; omega), hnd,
            ediv_eq_of_decomp (10 * (d + 367 - 31) + 5) 306 11 (10 * d - 1)
              (by norm_num) (by ring) (by omega) (by omega)]
        norm_num
      · rw [djID_eq _ (by rw [hnd]; omega), hnd,
            emod_eq_of_decomp (10 * (d + 367 - 31) + 5) 306 11 (10 * d - 1)
              (by norm_num) (by ring) (by omega) (by omega),
            ediv_eq_of_decomp (10 * d - 1) 10 (d - 1) (9)
              (by norm_num) (by ring) (by norm_num) (by norm_num)]
        ring
    · rw [if_neg hleap] at hd2
      have hcore := djcl_core (y - 1) 367 d (by omega) (by omega) (by norm_num) (by norm_num)
        hd (by omega) (by omega) (by omega)
      have hnd := hcore.2.2.2
      refine ⟨by have := hcore.2.2.1 (by norm_num); omega, ?_, ?_, hcore.1.1, hcore.1.2⟩
      · rw [djIM_eq _ (by rw [hnd]; omega), hnd,
            ediv_eq_of_decomp (10 * (d + 367 - 31) + 5) 306 11 (10 * d - 1)
              (by norm_num) (by ring) (by omega) (by omega)]
        norm_num
      · rw [djID_eq _ (by rw [hnd]; omega), hnd,
            emod_eq_of_decomp (10 * (d + 367 - 31) + 5) 306 11 (10 * d - 1)
              (by norm_num) (by ring) (by omega) (by omega),
            ediv_eq_of_decomp (10 * d - 1) 10 (d - 1) (9)
              (by norm_num) (by ring) (by norm_num) (by norm_num)]
        ring
  · -- month 3
    rw [cldjNum_eval_3 y d hy]
    rw [show mtab y 3 = 31 from rfl] at hd2
    have hcore := djcl_core y 30 d (by omega) (by omega) (by norm_num) (by norm_num)
      hd (by omega) (by omega) (by omega)
    have hnd := hcore.2.2.2
    refine ⟨by have := hcore.2.1 (by norm_num); omega, ?_, ?_, hcore.1.1, hcore.1.2⟩
    · rw [djIM_eq _ (by rw [hnd]; omega), hnd,
          ediv_eq_of_decomp (10 * (d + 30 - 31) + 5) 306 0 (10 * d - 5)
            (by norm_num) (by ring) (by omega) (by omega)]
      norm_num
    · rw [djID_eq _ (by rw [hnd]; omega), hnd,
          emod_eq_of_decomp (10 * (d + 30 - 31) + 5) 306 0 (10 * d - 5)
            (by norm_num) (by ring) (by omega) (by omega),
          ediv_eq_of_decomp (10 * d - 5) 10 (d - 1) (5)
            (by norm_num) (by ring) (by norm_num) (by norm_num)]
      ring
  · -- month 4
    rw [cldjNum_eval_4 y d hy]
    rw [show mtab y 4 = 30 from rfl] at hd2
    have hcore := djcl_core y 61 d (by omega) (by omega) (by norm_num) (by norm_num)
      hd (by omega) (by omega) (by omega)
    have hnd := hcore.2.2.2
    refine ⟨by have := hcore.2.1 (by norm_num); omega, ?_, ?_, hcore.1.1, hcore.1.2⟩
    · rw [djIM_eq _ (by rw [hnd]; omega), hnd,
          ediv_eq_of_decomp (10 * (d + 61 - 31) + 5) 306 1 (10 * d - 1)
            (by norm_num) (by ring) (by omega) (by omega)]
      norm_num
    · rw [djID_eq _ (by rw [hnd]; omega), hnd,
          emod_eq_of_decomp (10 * (d + 61 - 31) + 5) 306 1 (10 * d - 1)
            (by norm_num) (by ring) (by omega) (by omega),
          ediv_eq_of_decomp (10 * d - 1) 10 (d - 1) (9)
            (by norm_num) (by ring) (by norm_num) (by norm_num)]
      ring
  · -- month 5
    rw [cldjNum_eval_5 y d hy]
    rw [show mtab y 5 = 31 from rfl] at hd2
    have hcore := djcl_core y 91 d (by omega) (by omega) (by norm_num) (by norm_num)
      hd (by omega) (by omega) (by omega)
    have hnd := hcore.2.2.2
    refine ⟨by have := hcore.2.1 (by norm_num); omega, ?_, ?_, hcore.1.1, hcore.1.2⟩
    · rw [djIM_eq _ (by rw [hnd]; omega), hnd,
          ediv_eq_of_decomp (10 * (d + 91 - 31) + 5) 306 2 (10 * d - 7)
            (by norm_num) (by ring) (by omega) (by omega)]
      norm_num
    · rw [djID_eq _ (by rw [hnd]; omega), hnd,
          emod_eq_of_decomp (10 * (d + 91 - 31) + 5) 306 2 (10 * d - 7)
            (by norm_num) (by ring) (by omega) (by omega),
          ediv_eq_of_decomp (10 * d - 7) 10 (d - 1) (3)
            (by norm_num) (by ring) (by norm_num) (by norm_num)]
      ring
  · -- month 6
    rw [cldjNum_eval_6 y d hy]
    rw [show mtab y 6 = 30 from rfl] at hd2
    have hcore := djcl_core y 122 d (by omega) (by omega) (by norm_num) (by norm_num)
      hd (by omega) (by omega) (by omega)
    have hnd := hcore.2.2.2
    refine ⟨by have := hcore.2.1 (by norm_num); omega, ?_, ?_, hcore.1.1, hcore.1.2⟩
    · rw [djIM_eq _ (by rw [hnd]; omega), hnd,
          ediv_eq_of_decomp (10 * (d + 122 - 31) + 5) 306 3 (10 * d - 3)
            (by norm_num) (by ring) (by omega) (by omega)]
      norm_num
    · rw [djID_eq _ (by rw [hnd]; omega), hnd,
          emod_eq_of_decomp (10 * (d + 122 - 31) + 5) 306 3 (10 * d - 3)
            (by norm_num) (by ring) (by omega) (by omega),
          ediv_eq_of_decomp (10 * d - 3) 10 (d - 1) (7)
            (by norm_num) (by ring) (by norm_num) (by norm_num)]
      ring
  · -- month 7
    rw [cldjNum_eval_7 y d hy]
    rw [show mtab y 7 = 31 from rfl] at hd2
    have hcore := djcl_core y 152 d (by omega) (by omega) (by norm_num) (by norm_num)
      hd (by omega) (by omega) (by omega)
    have hnd := hcore.2.2.2
    refine ⟨by have := hcore.2.1 (by norm_num); omega, ?_, ?_, hcore.1.1, hcore.1.2⟩
    · rw [djIM_eq _ (by rw [hnd]; omega), hnd,
          ediv_eq_of_decomp (10 * (d + 152 - 31) + 5) 306 4 (10 * d - 9)
            (by norm_num) (by ring) (by omega) (by omega)]
      norm_num
    · rw [djID_eq _ (by rw [hnd]; omega), hnd,
          emod_eq_of_decomp (10 * (d + 152 - 31) + 5) 306 4 (10 * d - 9)
            (by norm_num) (by ring) (by omega) (by omega),
          ediv_eq_of_decomp (10 * d - 9) 10 (d - 1) (1)
            (by norm_num) (by ring) (by norm_num) (by norm_num)]
      ring
  · -- month 8
    rw [cldjNum_eval_8 y d hy]
    rw [show mtab y 8 = 31 from rfl] at hd2
    have hcore := djcl_core y 183 d (by omega) (by omega) (by norm_num) (by norm_num)
      hd (by omega) (by omega) (by omega)
    have hnd := hcore.2.2.2
    refine ⟨by have := hcore.2.1 (by norm_num); omega, ?_, ?_, hcore.1.1, hcore.1.2⟩
    · rw [djIM_eq _ (by rw [hnd]; omega), hnd,
          ediv_eq_of_decomp (10 * (d + 183 - 31) + 5) 306 5 (10 * d - 5)
            (by norm_num) (by ring) (by omega) (by omega)]
      norm_num
    · rw [djID_eq _ (by rw [hnd]; omega), hnd,
          emod_eq_of_decomp (10 * (d + 183 - 31) + 5) 306 5 (10 * d - 5)
            (by norm_num) (by ring) (by omega) (by omega),
          ediv_eq_of_decomp (10 * d - 5) 10 (d - 1) (5)
            (by norm_num) (by ring) (by norm_num) (by norm_num)]
      ring
  · -- month 9
    rw [cldjNum_eval_9 y d hy]
    rw [show mtab y 9 = 30 from rfl] at hd2
    have hcore := djcl_core y 214 d (by omega) (by omega) (by norm_num) (by norm_num)
      hd (by omega) (by omega) (by omega)
    have hnd := hcore.2.2.2
    refine ⟨by have := hcore.2.1 (by norm_num); omega, ?_, ?_, hcore.1.1, hcore.1.2⟩
    · rw [djIM_eq _ (by rw [hnd]; omega), hnd,
          ediv_eq_of_decomp (10 * (d + 214 - 31) + 5) 306 6 (10 * d - 1)
            (by norm_num) (by ring) (by omega) (by omega)]
      norm_num
    · rw [djID_eq _ (by rw [hnd]; omega), hnd,
          emod_eq_of_decomp (10 * (d + 214 - 31) + 5) 306 6 (10 * d - 1)
            (by norm_num) (by ring) (by omega) (by omega),
          ediv_eq_of_decomp (10 * d - 1) 10 (d - 1) (9)
            (by norm_num) (by ring) (by norm_num) (by norm_num)]
      ring
  · -- month 10
    rw [cldjNum_eval_10 y d hy]
    rw [show mtab y 10 = 31 from rfl] at hd2
    have hcore := djcl_core y 244 d (by omega) (by omega) (by norm_num) (by norm_num)
      hd (by omega) (by omega) (by omega)
    have hnd := hcore.2.2.2
    refine ⟨by have := hcore.2.1 (by norm_num); omega, ?_, ?_, hcore.1.1, hcore.1.2⟩
    · rw [djIM_eq _ (by rw [hnd]; omega), hnd,
          ediv_eq_of_decomp (10 * (d + 244 - 31) + 5) 306 7 (10 * d - 7)
            (by norm_num) (by ring) (by omega) (by omega)]
      norm_num
    · rw [djID_eq _ (by rw [hnd]; omega), hnd,
          emod_eq_of_decomp (10 * (d + 244 - 31) + 5) 306 7 (10 * d - 7)
            (by norm_num) (by ring) (by omega) (by omega),
          ediv_eq_of_decomp (10 * d - 7) 10 (d - 1) (3)
            (by norm_num) (by ring) (by norm_num) (by norm_num)]
      ring
  · -- month 11
    rw [cldjNum_eval_11 y d hy]
    rw [show mtab y 11 = 30 from rfl] at hd2
    have hcore := djcl_core y 275 d (by omega) (by omega) (by norm_num) (by norm_num)
      hd (by omega) (by omega) (by omega)
    have hnd := hcore.2.2.2
    refine ⟨by have := hcore.2.1 (by norm_num); omega, ?_, ?_, hcore.1.1, hcore.1.2⟩
    · rw [djIM_eq _ (by rw [hnd]; omega), hnd,
          ediv_eq_of_decomp (10 * (d + 275 - 31) + 5) 306 8 (10 * d - 3)
            (by norm_num) (by ring) (by omega) (by omega)]
      norm_num
    · rw [djID_eq _ (by rw [hnd]; omega), hnd,
          emod_eq_of_decomp (10 * (d + 275 - 31) + 5) 306 8 (10 * d - 3)
            (by norm_num) (by ring) (by omega) (by omega),
          ediv_eq_of_decomp (10 * d - 3) 10 (d - 1) (7)
            (by norm_num) (by ring) (by norm_num) (by norm_num)]
      ring
  · -- month 12
    rw [cldjNum_eval_12 y d hy]
    rw [show mtab y 12 = 31 from rfl] at hd2
    have hcore := djcl_core y 305 d (by omega) (by omega) (by norm_num) (by norm_num)
      hd (by omega) (by omega) (by omega)
    have hnd := hcore.2.2.2
    refine ⟨by have := hcore.2.1 (by norm_num); omega, ?_, ?_, hcore.1.1, hcore.1.2⟩
    · rw [djIM_eq _ (by rw [hnd]; omega), hnd,
          ediv_eq_of_decomp (10 * (d + 305 - 31) + 5) 306 9 (10 * d - 9)
            (by norm_num) (by ring) (by omega) (by omega)]
      norm_num
    · rw [djID_eq _ (by rw [hnd]; omega), hnd,
          emod_eq_of_decomp (10 * (d + 305 - 31) + 5) 306 9 (10 * d - 9)
            (by norm_num) (by ring) (by omega) (by omega),
          ediv_eq_of_decomp (10 * d - 9) 10 (d - 1) (1)
            (by norm_num) (by ring) (by norm_num) (by norm_num)]
      ring

/-! ### The round-trip theorem for the date conversions -/

theorem digVal_digChar (k : Int) (h0 : 0 ≤ k) (h1 : k ≤ 9) : digVal (digChar k) = some k := by
  interval_cases k <;> decide

theorem parseGreg_gregString (y mo d h mi s : Int)
    (hy : 0 ≤ y) (hy2 : y ≤ 9999) (hmo : 0 ≤ mo) (hmo2 : mo ≤ 99)
    (hd : 0 ≤ d) (hd2 : d ≤ 99) (hh : 0 ≤ h) (hh2 : h ≤ 99)
    (hm : 0 ≤ mi) (hm2 : mi ≤ 99) (hs : 0 ≤ s) (hs2 : s ≤ 99) :
    parseGreg (gregString y mo d h mi s).data = some (y, mo, d, h, mi, s) := by
  have hlist : (gregString y mo d h mi s).data
      = [digChar (y / 1000), digChar (y / 100 % 10), digChar (y / 10 % 10), digChar (y % 10),
         digChar (mo / 10), digChar (mo % 10), digChar (d / 10), digChar (d % 10), '_',
         digChar (h / 10), digChar (h % 10), digChar (mi / 10), digChar (mi % 10),
         digChar (s / 10), digChar (s % 10)] := rfl
  have e1 := digVal_digChar (y / 1000) (by omega) (by omega)
  have e2 := digVal_digChar (y / 100 % 10) (by omega) (by omega)
  have e3 := digVal_digChar (y / 10 % 10) (by omega) (by omega)
  have e4 := digVal_digChar (y % 10) (by omega) (by omega)
  have e5 := digVal_digChar (mo / 10) (by omega) (by omega)
  have e6 := digVal_digChar (mo % 10) (by omega) (by omega)
  have e7 := digVal_digChar (d / 10) (by omega) (by omega)
  have e8 := digVal_digChar (d % 10) (by omega) (by omega)
  have e9 := digVal_digChar (h / 10) (by omega) (by omega)
  have e10 := digVal_digChar (h % 10) (by omega) (by omega)
  have e11 := digVal_digChar (mi / 10) (by omega) (by omega)
  have e12 := digVal_digChar (mi % 10) (by omega) (by omega)
  have e13 := digVal_digChar (s / 10) (by omega) (by omega)
  have e14 := digVal_digChar (s % 10) (by omega) (by omega)
  rw [hlist]
  simp [parseGreg, parse4, parse2, e1, e2, e3, e4, e5, e6, e7, e8, e9, e10, e11, e12, e13, e14]
  omega

theorem slaDd2tf2_exact (h mi s : Int) (hh : 0 ≤ h) (hh2 : h ≤ 23)
    (hm : 0 ≤ mi) (hm2 : mi ≤ 59) (hs : 0 ≤ s) (hs2 : s ≤ 59) :
    slaDd2tf2 ((60 * (60 * (h : ℚ) + (mi : ℚ)) + (s : ℚ)) / 86400) = (h, mi, s, 0) := by
  have hcast : (100 * 86400 : ℚ) * ((60 * (60 * (h : ℚ) + (mi : ℚ)) + (s : ℚ)) / 86400)
      = ((360000 * h + 6000 * mi + 100 * s : Int) : ℚ) := by
    push_cast
    field_simp
    ring
  unfold slaDd2tf2
  rw [hcast, anint_intCast]
  dsimp only
  have q1 : (360000 * h + 6000 * mi + 100 * s) / 360000 = h :=
    ediv_eq_of_decomp _ _ _ (6000 * mi + 100 * s) (by norm_num) (by ring) (by omega) (by omega)
  have r1 : (360000 * h + 6000 * mi + 100 * s) % 360000 = 6000 * mi + 100 * s :=
    emod_eq_of_decomp _ _ h _ (by norm_num) (by ring) (by omega) (by omega)
  have q2 : (6000 * mi + 100 * s) / 6000 = mi :=
    ediv_eq_of_decomp _ _ _ (100 * s) (by norm_num) (by ring) (by omega) (by omega)
  have r2 : (6000 * mi + 100 * s) % 6000 = 100 * s :=
    emod_eq_of_decomp _ _ mi _ (by norm_num) (by ring) (by omega) (by omega)
  have q3 : (100 * s) / 100 = s :=
    ediv_eq_of_decomp _ _ _ 0 (by norm_num) (by ring) (by norm_num) (by norm_num)
  have r3 : (100 * s) % 100 = 0 :=
    emod_eq_of_decomp _ _ s 0 (by norm_num) (by ring) (by norm_num) (by norm_num)
  rw [q1, r1, q2, r2, q3, r3]

theorem floor_int_add_fract (n : Int) (f : ℚ) (h0 : 0 ≤ f) (h1 : f < 1) :
    ⌊(n : ℚ) + f⌋ = n := by
  rw [Int.floor_int_add, Int.floor_eq_zero_iff.mpr ⟨h0, h1⟩, add_zero]

theorem slaCldj_status0 (y m d : Int) (hy : 0 ≤ y) (hst : (slaCldj y m d).2 = 0) :
    1 ≤ m ∧ m ≤ 12 ∧ 1 ≤ d ∧ d ≤ 31 := by
  rw [slaCldj, if_neg (by omega : ¬ y < -4699)] at hst
  by_cases hm : 1 ≤ m ∧ m ≤ 12
  swap
  · rw [if_pos hm] at hst; exact absurd hst (by norm_num)
  rw [if_neg (by exact not_not_intro hm)] at hst
  have hdd : ¬(d < 1 ∨ d > mtab y m) := by
    intro hcon
    rw [if_pos hcon] at hst
    exact absurd hst (by norm_num)
  push_neg at hdd
  obtain ⟨hd, hd2⟩ := hdd
  obtain ⟨hm1, hm2⟩ := hm
  refine ⟨hm1, hm2, hd, ?_⟩
  have hmt : mtab y m ≤ 31 := by
    interval_cases m
    · norm_num [mtab, ftMod]
    · rw [mtab, if_pos rfl]
      split <;> norm_num
    all_goals norm_num [mtab, ftMod] <;> decide
  omega

theorem slaCldj_fst (y m d : Int) (hy : 0 ≤ y) (hm : 1 ≤ m ∧ m ≤ 12) :
    (slaCldj y m d).1 = cldjNum y m d := by
  rw [slaCldj, if_neg (by omega : ¬ y < -4699), if_neg (by exact not_not_intro hm)]

/-- C3: for every valid 1-second-resolution Gregorian string
(`gregString` of fields accepted by `sla_cldj`, with a four-digit year and
in-range time fields), `mjd_to_greg (greg_to_mjd g) = g`. -/
theorem C3_greg_mjd_roundtrip (y mo d h mi s : Int)
    (hy : 0 ≤ y) (hy2 : y ≤ 9999)
    (hcal : (slaCldj y mo d).2 = 0)
    (hh : 0 ≤ h) (hh2 : h ≤ 23) (hm : 0 ≤ mi) (hm2 : mi ≤ 59)
    (hs : 0 ≤ s) (hs2 : s ≤ 59) :
    (greg_to_mjd (gregString y mo d h mi s)).map mjd_to_greg
      = some (Except.ok (gregString y mo d h mi s)) := by
  obtain ⟨hmo1, hmo2, hd1, hd31⟩ := slaCldj_status0 y mo d hy hcal
  obtain ⟨hiy, him, hid, hlb, hub⟩ := djcl_cldj_roundtrip y mo d hy hy2 hcal
  rw [greg_to_mjd, parseGreg_gregString y mo d h mi s hy hy2 (by omega) (by omega)
      (by omega) (by omega) (by omega) (by omega) (by omega) (by omega) (by omega) (by omega)]
  dsimp only
  rw [slaCldj_fst y mo d hy ⟨hmo1, hmo2⟩]
  have hfrac0 : 0 ≤ (slaDtf2d h mi s).1 := by
    rw [slaDtf2d]
    positivity
  have hfrac1 : (slaDtf2d h mi s).1 < 1 := by
    rw [slaDtf2d]
    rw [div_lt_one (by norm_num)]
    exact_mod_cast (by omega : 60 * (60 * h + mi) + s < (86400 : Int))
  have hfloor : ⌊((cldjNum y mo d : Int) : ℚ) + (slaDtf2d h mi s).1⌋ = cldjNum y mo d :=
    floor_int_add_fract _ _ hfrac0 hfrac1
  rw [Option.map_some']
  congr 1
  rw [mjd_to_greg, if_neg ?hok]
  case hok =>
    rw [not_or, not_le, not_le]
    constructor
    · have : (-679300 : ℚ) ≤ (cldjNum y mo d : Int) := by exact_mod_cast hlb
      calc (-2395520 : ℚ) < -679300 + 0 := by norm_num
      _ ≤ ((cldjNum y mo d : Int) : ℚ) + (slaDtf2d h mi s).1 := by
          exact add_le_add this hfrac0
    · have : ((cldjNum y mo d : Int) : ℚ) ≤ 2973600 := by exact_mod_cast hub
      calc ((cldjNum y mo d : Int) : ℚ) + (slaDtf2d h mi s).1 < 2973600 + 1 := by
            exact add_lt_add_of_le_of_lt this hfrac1
      _ < 10 ^ 9 := by norm_num
  rw [hfloor]
  have hsub : ((cldjNum y mo d : Int) : ℚ) + (slaDtf2d h mi s).1
      - ((cldjNum y mo d : Int) : ℚ) = (60 * (60 * (h : ℚ) + (mi : ℚ)) + (s : ℚ)) / 86400 := by
    rw [slaDtf2d]
    ring
  rw [hsub, slaDd2tf2_exact h mi s hh hh2 hm hm2 hs hs2, hiy, him, hid]
  rfl

/-- Witness for C3 at the doctest date `19881103_000000` (MJD 47468). -/
theorem C3_greg_mjd_roundtrip_witness :
    (greg_to_mjd (gregString 1988 11 3 0 0 0)).map mjd_to_greg
      = some (Except.ok (gregString 1988 11 3 0 0 0)) :=
  C3_greg_mjd_roundtrip 1988 11 3 0 0 0 (by norm_num) (by norm_num) (by decide)
    (by norm_num) (by norm_num) (by norm_num) (by norm_num) (by norm_num) (by norm_num)

/-- C5: the failure behaviour of the conversions on unrepresentable dates.
`greg_to_mjd` silently returns an MJD for February 31 (the `sla_cldj`
status is 3 = bad day, but the code never checks it), and `mjd_to_greg` on
an out-of-range MJD (`10^9`) raises `NameError` -- `raise ValueError(BadMJD)`
references the undefined name `BadMJD` -- rather than any `InvalidDate`
error. -/
theorem C5_invalid_date_behavior :
    gregString 2013 2 31 0 0 0 = "20130231_000000"
    ∧ greg_to_mjd (gregString 2013 2 31 0 0 0) = some ((cldjNum 2013 2 31 : Int) : ℚ)
    ∧ (slaCldj 2013 2 31).2 = 3
    ∧ mjd_to_greg ((10 : ℚ) ^ 9) = Except.error PyErr.nameError := by
  refine ⟨by decide, ?_, by decide, ?_⟩
  · rw [greg_to_mjd, parseGreg_gregString 2013 2 31 0 0 0 (by norm_num) (by norm_num)
        (by norm_num) (by norm_num) (by norm_num) (by norm_num) (by norm_num) (by norm_num)
        (by norm_num) (by norm_num) (by norm_num) (by norm_num)]
    dsimp only
    rw [slaCldj_fst 2013 2 31 (by norm_num) ⟨by norm_num, by norm_num⟩, slaDtf2d]
    norm_num
  · rw [mjd_to_greg, if_pos (Or.inr (le_refl _))]

/-! ### `ScanningStrategy.run_one_scan` (`scanning_strategy.py`)

One CES synthesis.  The geometry is derived exactly as in the source
(`az_mean = (az_min + az_max) * 0.5`, `az_throw = (az_max - az_min) /
cos(el)`, `az_speed = sky_speed / cos(el)`); the float value of
`cos(el/radToDeg)` is passed in as a rational parameter `cosel`.  The
ephem date cursor is a float counted in days, `ephem.second = 1/86400`.
The pyephem transform `radec_of` is an oracle parameter `R` taking the
cursor date and the azimuth/elevation arguments of the call. -/

/-- `ephem.second`: one second as a fraction of a day. -/
def ephemSecond : ℚ := 1 / 86400

/-- The supported values of the `language` argument. -/
inductive Lang
  | python
  | c
  | fortran
deriving DecidableEq, Repr

/-- `az_mean = (self.az_min[n] + self.az_max[n]) * 0.5`. -/
def az_mean (az_min az_max : ℚ) : ℚ := (az_min + az_max) * (1 / 2)

/-- `az_throw = (self.az_max[n] - self.az_min[n]) / np.cos(el / radToDeg)`. -/
def az_throw (az_min az_max cosel : ℚ) : ℚ := (az_max - az_min) / cosel

/-- `upper_az = az_mean + az_throw / 2`. -/
def upper_az (az_min az_max cosel : ℚ) : ℚ :=
  az_mean az_min az_max + az_throw az_min az_max cosel / 2

/-- `lower_az = az_mean - az_throw / 2`. -/
def lower_az (az_min az_max cosel : ℚ) : ℚ :=
  az_mean az_min az_max - az_throw az_min az_max cosel / 2

/-- `az_speed = self.sky_speed / np.cos(el / radToDeg)`. -/
def az_speed (sky_speed cosel : ℚ) : ℚ := sky_speed / cosel

/-- One iteration of the azimuth loop body acting on
`(running_az, pb_az_dir)`: the reversal test reads the position *before*
the increment is applied. -/
def scanStep (upper lower step : ℚ) (s : ℚ × ℚ) : ℚ × ℚ :=
  let d := if s.1 > upper then -1 else if s.1 < lower then 1 else s.2
  (s.1 + d * step, d)

/-- `(running_az, pb_az_dir)` as recorded at sample `t`: sample 0 is
`az_mean` itself; the update before the loop (`running_az += az_speed *
pb_az_dir / sampling_freq`) happens without any reversal test, so sample 1
is `az_mean + step` with direction `1`; from then on `scanStep` applies. -/
def runningAz (azm upper lower step : ℚ) : Nat → ℚ × ℚ
  | 0 => (azm, 1)
  | 1 => (azm + step, 1)
  | n + 2 => scanStep upper lower step (runningAz azm upper lower step (n + 1))

/-- `pb_az_array[t]` in the python/C/fortran loops (they share this
recurrence). -/
def pb_az (azm upper lower step : ℚ) (t : Nat) : ℚ :=
  (runningAz azm upper lower step t).1

/-- `pb_mjd_array[t] = pb_mjd_array[t-1] + ephem.second / sampling_freq`. -/
def pb_mjd (mjd0 f : ℚ) : Nat → ℚ
  | 0 => mjd0
  | t + 1 => pb_mjd mjd0 f t + ephemSecond / f

/-- `pb_ra_array[t]` under the python backend: the loop starts at `t = 1`,
so index 0 keeps its `np.zeros` initialisation; for `t ≥ 1` the value is
the first component of `radec_of(pb_az[t] * pi / 180, el * pi / 180)`
evaluated with the cursor at `d0 + t * ephem.second / f` (`d0` is the
post-reset date).  `R` is the pyephem oracle (date, az argument, el
argument); `piA` is the float value of `np.pi`. -/
def pb_ra (R : ℚ → ℚ → ℚ → ℚ × ℚ) (piA d0 f azm upper lower step el : ℚ) (t : Nat) : ℚ :=
  if t = 0 then 0
  else (R (d0 + t * ephemSecond / f) (pb_az azm upper lower step t * piA / 180)
          (el * piA / 180)).1

/-- `pb_dec_array[t]`, same structure as `pb_ra`. -/
def pb_dec (R : ℚ → ℚ → ℚ → ℚ × ℚ) (piA d0 f azm upper lower step el : ℚ) (t : Nat) : ℚ :=
  if t = 0 then 0
  else (R (d0 + t * ephemSecond / f) (pb_az azm upper lower step t * piA / 180)
          (el * piA / 180)).2

/-- The date-cursor increments of the sample loop: under the python
backend the loop body runs `self.telescope_location.date += ephem.second /
sampling_freq` for `t = 1, ..., num_pts - 1`; the C and fortran loops do
not touch the cursor. -/
def dateAfterLoop (lang : Lang) (d1 f : ℚ) (numPts : Nat) : ℚ :=
  match lang with
  | .python => (List.range (numPts - 1)).foldl (fun d _ => d + ephemSecond / f) d1
  | .c => d1
  | .fortran => d1

/-- The full path of the date cursor through `run_one_scan`, starting from
the post-reset date `d0`: the pre-loop increment (line
`self.telescope_location.date += ephem.second / sampling_freq`), the loop,
the unconditional bulk advance `num_pts * ephem.second / sampling_freq`,
and the final guard `24 * ephem.second * 3600`. -/
def dateAfterScan (lang : Lang) (d0 f : ℚ) (numPts : Nat) : ℚ :=
  dateAfterLoop lang (d0 + ephemSecond / f) f numPts
    + (numPts : ℚ) * ephemSecond / f
    + 24 * ephemSecond * 3600

/-- Cursor advance across one CES, converted to seconds. -/
def dateAdvanceSec (lang : Lang) (d0 f : ℚ) (numPts : Nat) : ℚ :=
  (dateAfterScan lang d0 f numPts - d0) * 86400

theorem dateAfterLoop_python (d1 f : ℚ) (n : Nat) :
    dateAfterLoop .python d1 f n = d1 + (n - 1 : Nat) * (ephemSecond / f) := by
  show (List.range (n - 1)).foldl (fun d _ => d + ephemSecond / f) d1 = _
  generalize n - 1 = k
  induction k generalizing d1 with
  | zero => simp
  | succ m ih =>
    rw [List.range_succ, List.foldl_append, ih]
    push_cast
    simp
    ring

/-- C2 (amended): starting from the post-reset cursor `d0`, one
`run_one_scan` call advances the date cursor by `2*num_pts/f + 86400`
seconds under the python backend (per-sample increments *plus* the
unconditional bulk advance), and by `(num_pts+1)/f + 86400` seconds under
the C and fortran backends (pre-loop increment plus bulk advance); under
no backend is the advance the claimed `num_pts/f + 86400`. -/
theorem C2_date_advance (d0 f : ℚ) (numPts : Nat) (hf : 0 < f) (hn : 1 ≤ numPts) :
    dateAdvanceSec .python d0 f numPts = 2 * (numPts : ℚ) / f + 86400
    ∧ dateAdvanceSec .c d0 f numPts = ((numPts : ℚ) + 1) / f + 86400
    ∧ dateAdvanceSec .fortran d0 f numPts = ((numPts : ℚ) + 1) / f + 86400 := by
  have hf0 : f ≠ 0 := ne_of_gt hf
  have hcast : ((numPts - 1 : Nat) : ℚ) = (numPts : ℚ) - 1 := by
    push_cast [hn]
    ring
  refine ⟨?_, ?_, ?_⟩
  · unfold dateAdvanceSec dateAfterScan
    rw [dateAfterLoop_python, hcast]
    unfold ephemSecond
    field_simp
    ring
  · unfold dateAdvanceSec dateAfterScan dateAfterLoop ephemSecond
    field_simp
    ring
  · unfold dateAdvanceSec dateAfterScan dateAfterLoop ephemSecond
    field_simp
    ring

/-- Counterexample for C2 as stated: with `num_pts = 1` and
`sampling_freq = 1` no backend advances the cursor by
`num_pts/f + 86400 = 86401` seconds (python advances 86402, C and fortran
advance 86402 as well via a different split). -/
theorem C2_counterexample :
    dateAdvanceSec .python 0 1 1 ≠ 1 / 1 + 86400
    ∧ dateAdvanceSec .c 0 1 1 ≠ 1 / 1 + 86400
    ∧ dateAdvanceSec .fortran 0 1 1 ≠ 1 / 1 + 86400 := by
  refine ⟨?_, ?_, ?_⟩ <;>
    · norm_num [dateAdvanceSec, dateAfterScan, dateAfterLoop, ephemSecond]

theorem C2_date_advance_witness :
    (0 : ℚ) < 30 ∧ 1 ≤ 100
    ∧ (dateAdvanceSec .python 0 30 100 = 2 * ((100 : Nat) : ℚ) / 30 + 86400
      ∧ dateAdvanceSec .c 0 30 100 = (((100 : Nat) : ℚ) + 1) / 30 + 86400
      ∧ dateAdvanceSec .fortran 0 30 100 = (((100 : Nat) : ℚ) + 1) / 30 + 86400) :=
  ⟨by norm_num, by norm_num, C2_date_advance 0 30 100 (by norm_num) (by norm_num)⟩

/-- The azimuth loop invariant: the recorded position stays within one
step of the scan window, and the direction is always `±1`. -/
theorem runningAz_invariant (azm upper lower step : ℚ)
    (hl : lower ≤ azm) (hu : azm ≤ upper) (hstep : 0 ≤ step) (t : Nat) :
    (lower - step ≤ (runningAz azm upper lower step t).1
      ∧ (runningAz azm upper lower step t).1 ≤ upper + step)
    ∧ ((runningAz azm upper lower step t).2 = 1
      ∨ (runningAz azm upper lower step t).2 = -1) := by
  induction t with
  | zero =>
    refine ⟨⟨?_, ?_⟩, Or.inl rfl⟩ <;> · show _ ≤ _
                                        simp only [runningAz]
                                        linarith
  | succ n ih =>
    cases n with
    | zero =>
      refine ⟨⟨?_, ?_⟩, Or.inl rfl⟩ <;> · show _ ≤ _
                                          simp only [runningAz]
                                          linarith
    | succ m =>
      obtain ⟨⟨ih1, ih2⟩, ihd⟩ := ih
      have heq : runningAz azm upper lower step (m + 1 + 1)
          = scanStep upper lower step (runningAz azm upper lower step (m + 1)) := rfl
      rw [heq]
      unfold scanStep
      dsimp only
      split_ifs with h1 h2
      · exact ⟨⟨by linarith, by linarith⟩, Or.inr rfl⟩
      · exact ⟨⟨by linarith, by linarith⟩, Or.inl rfl⟩
      · push_neg at h1 h2
        rcases ihd with hd | hd <;> rw [hd]
        · exact ⟨⟨by linarith, by linarith⟩, Or.inl rfl⟩
        · exact ⟨⟨by linarith, by linarith⟩, Or.inr rfl⟩

/-- C4: every recorded azimuth sample lies within
`[az_mean - az_throw/2 - step, az_mean + az_throw/2 + step]` where
`az_throw = (az_max - az_min)/cos(el)` and the overshoot allowance is one
sample step `step = az_speed/sampling_freq`, because the reversal test
reads the position before the increment. -/
theorem C4_azimuth_bounded (az_min az_max cosel sky_speed f : ℚ)
    (hminmax : az_min ≤ az_max) (hc : 0 < cosel) (hs : 0 ≤ sky_speed) (hf : 0 < f)
    (t : Nat) :
    lower_az az_min az_max cosel - az_speed sky_speed cosel / f
      ≤ pb_az (az_mean az_min az_max) (upper_az az_min az_max cosel)
          (lower_az az_min az_max cosel) (az_speed sky_speed cosel / f) t
    ∧ pb_az (az_mean az_min az_max) (upper_az az_min az_max cosel)
          (lower_az az_min az_max cosel) (az_speed sky_speed cosel / f) t
      ≤ upper_az az_min az_max cosel + az_speed sky_speed cosel / f := by
  have hthrow : 0 ≤ az_throw az_min az_max cosel :=
    div_nonneg (by linarith) hc.le
  have hstep : 0 ≤ az_speed sky_speed cosel / f :=
    div_nonneg (div_nonneg hs hc.le) hf.le
  have hl : lower_az az_min az_max cosel ≤ az_mean az_min az_max := by
    unfold lower_az
    linarith
  have hu : az_mean az_min az_max ≤ upper_az az_min az_max cosel := by
    unfold upper_az
    linarith
  exact (runningAz_invariant _ _ _ _ hl hu hstep t).1

/-- Witness for C4 on the first deep-patch slot geometry
(`az_min = 134.2263`, `az_max = 154.2263`, a rational stand-in for
`cos(30°)`, `sky_speed = 0.4`, `sampling_freq = 30`), at sample 7. -/
theorem C4_azimuth_bounded_witness :
    lower_az (1342263 / 10000) (1542263 / 10000) (866 / 1000)
        - az_speed (4 / 10) (866 / 1000) / 30
      ≤ pb_az (az_mean (1342263 / 10000) (1542263 / 10000))
          (upper_az (1342263 / 10000) (1542263 / 10000) (866 / 1000))
          (lower_az (1342263 / 10000) (1542263 / 10000) (866 / 1000))
          (az_speed (4 / 10) (866 / 1000) / 30) 7
    ∧ pb_az (az_mean (1342263 / 10000) (1542263 / 10000))
          (upper_az (1342263 / 10000) (1542263 / 10000) (866 / 1000))
          (lower_az (1342263 / 10000) (1542263 / 10000) (866 / 1000))
          (az_speed (4 / 10) (866 / 1000) / 30) 7
      ≤ upper_az (1342263 / 10000) (1542263 / 10000) (866 / 1000)
          + az_speed (4 / 10) (866 / 1000) / 30 :=
  C4_azimuth_bounded (1342263 / 10000) (1542263 / 10000) (866 / 1000) (4 / 10) 30
    (by norm_num) (by norm_num) (by norm_num) (by norm_num) 7

/-- C9 (amended): under the python backend every sample with index
`t ≥ 1` receives RA/Dec from the instantaneous transform at its cursor
time, while sample 0 is never written and keeps the `np.zeros`
initialisation. -/
theorem C9_ra_dec_assignment (R : ℚ → ℚ → ℚ → ℚ × ℚ)
    (piA d0 f azm upper lower step el : ℚ) (t : Nat) (ht : 1 ≤ t) :
    pb_ra R piA d0 f azm upper lower step el t
      = (R (d0 + t * ephemSecond / f) (pb_az azm upper lower step t * piA / 180)
          (el * piA / 180)).1
    ∧ pb_dec R piA d0 f azm upper lower step el t
      = (R (d0 + t * ephemSecond / f) (pb_az azm upper lower step t * piA / 180)
          (el * piA / 180)).2
    ∧ pb_ra R piA d0 f azm upper lower step el 0 = 0
    ∧ pb_dec R piA d0 f azm upper lower step el 0 = 0 := by
  unfold pb_ra pb_dec
  rw [if_neg (by omega), if_neg (by omega), if_pos rfl, if_pos rfl]
  exact ⟨rfl, rfl, rfl, rfl⟩

/-- Witness for the amended C9 at `t = 1` with a concrete transform
oracle. -/
theorem C9_ra_dec_assignment_witness :
    pb_ra (fun a b c => (a + b + c, a - b)) 3 2 1 0 1 0 1 5 1
      = ((fun (a b c : ℚ) => (a + b + c, a - b)) (2 + 1 * ephemSecond / 1)
          (pb_az 0 1 0 1 1 * 3 / 180) (5 * 3 / 180)).1
    ∧ pb_dec (fun a b c => (a + b + c, a - b)) 3 2 1 0 1 0 1 5 1
      = ((fun (a b c : ℚ) => (a + b + c, a - b)) (2 + 1 * ephemSecond / 1)
          (pb_az 0 1 0 1 1 * 3 / 180) (5 * 3 / 180)).2
    ∧ pb_ra (fun a b c => (a + b + c, a - b)) 3 2 1 0 1 0 1 5 0 = 0
    ∧ pb_dec (fun a b c => (a + b + c, a - b)) 3 2 1 0 1 0 1 5 0 = 0 :=
  C9_ra_dec_assignment (fun a b c => (a + b + c, a - b)) 3 2 1 0 1 0 1 5 1 (le_refl 1)

/-- Counterexample for C9 as stated: with a transform oracle that returns
`(1, 1)` everywhere, sample 0's RA is `0` (its `np.zeros` initialisation),
not the transform value `1`, so not every sample is set from the
transform. -/
theorem C9_counterexample :
    pb_ra (fun _ _ _ => (1, 1)) 3 0 1 0 1 0 1 0 0 = 0
    ∧ ((fun (_ _ _ : ℚ) => ((1 : ℚ), (1 : ℚ))) (0 + 0 * ephemSecond / 1)
        (pb_az 0 1 0 1 0 * 3 / 180) (0 * 3 / 180)).1 = 1
    ∧ (0 : ℚ) ≠ 1 := by
  refine ⟨rfl, rfl, by norm_num⟩

/-! ### Crosstalk injection (`systematics.py`)

`inject_crosstalk_inside_SQUID` and `inject_crosstalk_SQUID_to_SQUID`
group detectors by SQUID id (`combs`, a dict in first-appearance order)
and then add pairwise leakage terms.  Both loops read and write the same
working array `tsout` (`tsout[i] += cross_amp[i2] / ... * tsout[i2]`), so
a source may already be contaminated when it is read.  Timestreams are
`Nat → List ℚ` (detector index to samples); `cross_amp` -- the numpy
normal draw `state.normal(mu/100, sigma/100, n)` -- is an oracle
parameter `amp`. -/

/-- Elementwise `dst += c * src` on sample arrays. -/
def addScaled (c : ℚ) (src dst : List ℚ) : List ℚ :=
  List.zipWith (fun x y => x + c * y) dst src

/-- Append bolometer `p` to the group of key `k` (Python dict insertion
semantics: existing key keeps its position, new key goes last). -/
def insertComb {α : Type _} [DecidableEq α] (k : α) (p : Int × Nat) :
    List (α × List (Int × Nat)) → List (α × List (Int × Nat))
  | [] => [(k, [p])]
  | g :: gs => if g.1 = k then (g.1, g.2 ++ [p]) :: gs else g :: insertComb k p gs

/-- The `combs` dictionary: for each bolometer `b < n` append
`(bolo_ids[b], b)` to the group of `squid_ids[b]`. -/
def buildCombs {α : Type _} [DecidableEq α] (squid_ids : Nat → α) (bolo_ids : Nat → Int)
    (n : Nat) : List (α × List (Int × Nat)) :=
  (List.range n).foldl (fun acc b => insertComb (squid_ids b) (bolo_ids b, b) acc) []

/-- One innermost update of the within-SQUID loop: for target `p = (ch, i)`
and source `p2 = (ch2, i2)`, if `0 < |ch - ch2| ≤ radius` then
`tsout[i] += cross_amp[i2] / |ch - ch2|^beta * tsout[i2]` -- both reads
are against the current working array. -/
def innerStep (radius beta : Nat) (amp : Nat → ℚ) (p : Int × Nat)
    (acc : Nat → List ℚ) (p2 : Int × Nat) : Nat → List ℚ :=
  if 0 < (p.1 - p2.1).natAbs ∧ (p.1 - p2.1).natAbs ≤ radius then
    Function.update acc p.2
      (addScaled (amp p2.2 / ((p.1 - p2.1).natAbs : ℚ) ^ beta) (acc p2.2) (acc p.2))
  else acc

/-- The two nested channel loops of `inject_crosstalk_inside_SQUID` for
one SQUID's member list. -/
def squidInner (radius beta : Nat) (amp : Nat → ℚ) (members : List (Int × Nat))
    (ts : Nat → List ℚ) : Nat → List ℚ :=
  members.foldl (fun acc p => members.foldl (innerStep radius beta amp p) acc) ts

/-- The SQUID loop of `inject_crosstalk_inside_SQUID`, parameterised by
the group list (the code iterates `combs` in insertion order). -/
def injectInsideGroups {α : Type _} (radius beta : Nat) (amp : Nat → ℚ)
    (groups : List (α × List (Int × Nat))) (ts : Nat → List ℚ) : Nat → List ℚ :=
  groups.foldl (fun acc g => squidInner radius beta amp g.2 acc) ts

/-- `inject_crosstalk_inside_SQUID` (python branch): group by SQUID, then
run the contamination loops on the working copy of `bolo_data`. -/
def inject_crosstalk_inside_SQUID {α : Type _} [DecidableEq α]
    (squid_ids : Nat → α) (bolo_ids : Nat → Int) (n radius beta : Nat)
    (amp : Nat → ℚ) (ts : Nat → List ℚ) : Nat → List ℚ :=
  injectInsideGroups radius beta amp (buildCombs squid_ids bolo_ids n) ts

/-- Modelled from the spec: the same loops, but with every pairwise
addition reading its source from the original pre-contamination snapshot
`ts` ("All pairwise additions read from the *original* (pre-contamination)
timestream snapshot taken at the start of the call"). -/
def injectInsideGroups_snapshot {α : Type _} (radius beta : Nat) (amp : Nat → ℚ)
    (groups : List (α × List (Int × Nat))) (ts : Nat → List ℚ) : Nat → List ℚ :=
  groups.foldl
    (fun acc g =>
      g.2.foldl
        (fun acc2 p =>
          g.2.foldl
            (fun acc3 p2 =>
              if 0 < (p.1 - p2.1).natAbs ∧ (p.1 - p2.1).natAbs ≤ radius then
                Function.update acc3 p.2
                  (addScaled (amp p2.2 / ((p.1 - p2.1).natAbs : ℚ) ^ beta)
                    (ts p2.2) (acc3 p.2))
              else acc3)
            acc2)
        acc)
    ts

/-- The loops of `inject_crosstalk_SQUID_to_SQUID`: every bolometer of
every SQUID receives `cross_amp[i2]/squid_attenuation * tsout[i2]` from
every bolometer of every *other* SQUID, reads against the working array. -/
def injectS2SGroups {α : Type _} [DecidableEq α] (att : ℚ) (amp : Nat → ℚ)
    (groups : List (α × List (Int × Nat))) (ts : Nat → List ℚ) : Nat → List ℚ :=
  groups.foldl
    (fun acc g1 =>
      g1.2.foldl
        (fun acc2 p =>
          groups.foldl
            (fun acc3 g2 =>
              if g2.1 = g1.1 then acc3
              else
                g2.2.foldl
                  (fun acc4 p2 =>
                    Function.update acc4 p.2
                      (addScaled (amp p2.2 / att) (acc4 p2.2) (acc4 p.2)))
                  acc3)
            acc2)
        acc)
    ts

/-- `inject_crosstalk_SQUID_to_SQUID`. -/
def inject_crosstalk_SQUID_to_SQUID {α : Type _} [DecidableEq α]
    (squid_ids : Nat → α) (bolo_ids : Nat → Int) (n : Nat) (att : ℚ)
    (amp : Nat → ℚ) (ts : Nat → List ℚ) : Nat → List ℚ :=
  injectS2SGroups att amp (buildCombs squid_ids bolo_ids n) ts

/-! Locality of the within-SQUID contamination: a SQUID's loops write only
its own members' timestreams and read only its own members', so disjoint
SQUID groups commute and the SQUID iteration order is irrelevant. -/

theorem innerFold_ne (radius beta : Nat) (amp : Nat → ℚ) (p : Int × Nat)
    (l : List (Int × Nat)) (acc : Nat → List ℚ) (i : Nat) (h : i ≠ p.2) :
    l.foldl (innerStep radius beta amp p) acc i = acc i := by
  induction l generalizing acc with
  | nil => rfl
  | cons q l ih =>
    rw [List.foldl_cons, ih]
    unfold innerStep
    split_ifs
    · rw [Function.update_noteq h]
    · rfl

theorem squidInnerAux_ne (radius beta : Nat) (amp : Nat → ℚ) (mem2 : List (Int × Nat))
    (l : List (Int × Nat)) (acc : Nat → List ℚ) (i : Nat) (h : ∀ p ∈ l, i ≠ p.2) :
    l.foldl (fun acc p => mem2.foldl (innerStep radius beta amp p) acc) acc i = acc i := by
  induction l generalizing acc with
  | nil => rfl
  | cons q l ih =>
    rw [List.foldl_cons, ih _ (fun p hp => h p (List.mem_cons_of_mem q hp))]
    exact innerFold_ne radius beta amp q mem2 acc i (h q (List.mem_cons_self q l))

theorem squidInner_ne (radius beta : Nat) (amp : Nat → ℚ) (members : List (Int × Nat))
    (ts : Nat → List ℚ) (i : Nat) (h : i ∉ members.map Prod.snd) :
    squidInner radius beta amp members ts i = ts i := by
  unfold squidInner
  refine squidInnerAux_ne radius beta amp members members ts i ?_
  intro p hp hip
  exact h (List.mem_map.mpr ⟨p, hp, hip.symm⟩)

theorem innerFold_agree (radius beta : Nat) (amp : Nat → ℚ) (p : Int × Nat)
    (l : List (Int × Nat)) (S : List Nat) (acc acc' : Nat → List ℚ)
    (hp : p.2 ∈ S) (hl : ∀ q ∈ l, q.2 ∈ S) (h : ∀ j ∈ S, acc j = acc' j) :
    ∀ j ∈ S, l.foldl (innerStep radius beta amp p) acc j
      = l.foldl (innerStep radius beta amp p) acc' j := by
  induction l generalizing acc acc' with
  | nil => exact h
  | cons q l ih =>
    rw [List.foldl_cons, List.foldl_cons]
    refine ih _ _ (fun r hr => hl r (List.mem_cons_of_mem q hr)) ?_
    intro j hj
    unfold innerStep
    split_ifs
    · by_cases hj2 : j = p.2
      · subst hj2
        rw [Function.update_same, Function.update_same,
            h q.2 (hl q (List.mem_cons_self q l)), h p.2 hp]
      · rw [Function.update_noteq hj2, Function.update_noteq hj2]
        exact h j hj
    · exact h j hj

theorem squidInnerAux_agree (radius beta : Nat) (amp : Nat → ℚ) (mem2 : List (Int × Nat))
    (l : List (Int × Nat)) (S : List Nat) (acc acc' : Nat → List ℚ)
    (hmem2 : ∀ q ∈ mem2, q.2 ∈ S) (hl : ∀ p ∈ l, p.2 ∈ S) (h : ∀ j ∈ S, acc j = acc' j) :
    ∀ j ∈ S, l.foldl (fun acc p => mem2.foldl (innerStep radius beta amp p) acc) acc j
      = l.foldl (fun acc p => mem2.foldl (innerStep radius beta amp p) acc) acc' j := by
  induction l generalizing acc acc' with
  | nil => exact h
  | cons q l ih =>
    rw [List.foldl_cons, List.foldl_cons]
    refine ih _ _ (fun r hr => hl r (List.mem_cons_of_mem q hr)) ?_
    exact innerFold_agree radius beta amp q mem2 S acc acc'
      (hl q (List.mem_cons_self q l)) hmem2 h

theorem squidInner_agree (radius beta : Nat) (amp : Nat → ℚ) (members : List (Int × Nat))
    (S : List Nat) (acc acc' : Nat → List ℚ)
    (hmem : ∀ q ∈ members, q.2 ∈ S) (h : ∀ j ∈ S, acc j = acc' j) :
    ∀ j ∈ S, squidInner radius beta amp members acc j
      = squidInner radius beta amp members acc' j :=
  squidInnerAux_agree radius beta amp members members S acc acc' hmem hmem h

theorem squidInner_comm (radius beta : Nat) (amp : Nat → ℚ)
    (m1 m2 : List (Int × Nat)) (ts : Nat → List ℚ)
    (hdisj : ∀ p ∈ m1, ∀ q ∈ m2, p.2 ≠ q.2) :
    squidInner radius beta amp m2 (squidInner radius beta amp m1 ts)
      = squidInner radius beta amp m1 (squidInner radius beta amp m2 ts) := by
  funext i
  by_cases h1 : i ∈ m1.map Prod.snd
  · have h2 : i ∉ m2.map Prod.snd := by
      rw [List.mem_map] at h1 ⊢
      obtain ⟨p, hp, hpi⟩ := h1
      rintro ⟨q, hq, hqi⟩
      exact hdisj p hp q hq (hpi.trans hqi.symm)
    rw [squidInner_ne radius beta amp m2 _ i h2]
    refine (squidInner_agree radius beta amp m1 (m1.map Prod.snd)
      (squidInner radius beta amp m2 ts) ts
      (fun q hq => List.mem_map.mpr ⟨q, hq, rfl⟩) ?_ i h1).symm
    intro j hj
    have hj2 : j ∉ m2.map Prod.snd := by
      rw [List.mem_map] at hj ⊢
      obtain ⟨p, hp, hpi⟩ := hj
      rintro ⟨q, hq, hqi⟩
      exact hdisj p hp q hq (hpi.trans hqi.symm)
    exact squidInner_ne radius beta amp m2 ts j hj2
  · by_cases h2 : i ∈ m2.map Prod.snd
    · have h1' : i ∉ m1.map Prod.snd := h1
      rw [squidInner_ne radius beta amp m1 _ i h1']
      refine squidInner_agree radius beta amp m2 (m2.map Prod.snd)
        (squidInner radius beta amp m1 ts) ts
        (fun q hq => List.mem_map.mpr ⟨q, hq, rfl⟩) ?_ i h2
      intro j hj
      have hj1 : j ∉ m1.map Prod.snd := by
        rw [List.mem_map] at hj ⊢
        obtain ⟨q, hq, hqi⟩ := hj
        rintro ⟨p, hp, hpi⟩
        exact hdisj p hp q hq (hpi.trans hqi.symm)
      exact squidInner_ne radius beta amp m1 ts j hj1
    · rw [squidInner_ne radius beta amp m2 _ i h2,
          squidInner_ne radius beta amp m1 ts i h1,
          squidInner_ne radius beta amp m1 _ i h1,
          squidInner_ne radius beta amp m2 ts i h2]

/-! `combs` groups built from distinct SQUID keys have pairwise disjoint
detector index sets: every bolometer index is inserted exactly once. -/

theorem insertComb_snd_sub {α : Type _} [DecidableEq α] (k : α) (p : Int × Nat)
    (gs : List (α × List (Int × Nat))) :
    ∀ g' ∈ insertComb k p gs, ∀ q ∈ g'.2, (∃ g ∈ gs, q ∈ g.2) ∨ q = p := by
  induction gs with
  | nil =>
    intro g' hg' q hq
    rw [insertComb] at hg'
    rcases List.mem_singleton.mp hg' with rfl
    rcases List.mem_singleton.mp hq with rfl
    exact Or.inr rfl
  | cons g gs ih =>
    intro g' hg' q hq
    rw [insertComb] at hg'
    split_ifs at hg' with hk
    · rcases List.mem_cons.mp hg' with rfl | hmem
      · rcases List.mem_append.mp hq with hq1 | hq1
        · exact Or.inl ⟨g, List.mem_cons_self g gs, hq1⟩
        · exact Or.inr (List.mem_singleton.mp hq1)
      · exact Or.inl ⟨g', List.mem_cons_of_mem g hmem, hq⟩
    · rcases List.mem_cons.mp hg' with rfl | hmem
      · exact Or.inl ⟨g', List.mem_cons_self g' gs, hq⟩
      · rcases ih g' hmem q hq with ⟨g0, hg0, hq0⟩ | hq0
        · exact Or.inl ⟨g0, List.mem_cons_of_mem g hg0, hq0⟩
        · exact Or.inr hq0

theorem insertComb_pairwise {α : Type _} [DecidableEq α] (k : α) (p : Int × Nat)
    (gs : List (α × List (Int × Nat)))
    (hfresh : ∀ g ∈ gs, ∀ q ∈ g.2, q.2 ≠ p.2)
    (hpw : gs.Pairwise (fun g1 g2 => ∀ q1 ∈ g1.2, ∀ q2 ∈ g2.2, q1.2 ≠ q2.2)) :
    (insertComb k p gs).Pairwise (fun g1 g2 => ∀ q1 ∈ g1.2, ∀ q2 ∈ g2.2, q1.2 ≠ q2.2) := by
  induction gs with
  | nil =>
    rw [insertComb]
    exact List.pairwise_singleton _ _
  | cons g gs ih =>
    obtain ⟨hg, hgs⟩ := List.pairwise_cons.mp hpw
    rw [insertComb]
    split_ifs with hk
    · rw [List.pairwise_cons]
      refine ⟨?_, hgs⟩
      intro g2 hg2 q1 hq1 q2 hq2
      rcases List.mem_append.mp hq1 with hq | hq
      · exact hg g2 hg2 q1 hq q2 hq2
      · rw [List.mem_singleton.mp hq]
        exact fun hcon => hfresh g2 (List.mem_cons_of_mem g hg2) q2 hq2 hcon.symm
    · rw [List.pairwise_cons]
      constructor
      · intro g2 hg2 q1 hq1 q2 hq2
        rcases insertComb_snd_sub k p gs g2 hg2 q2 hq2 with ⟨g0, hg0, hq0⟩ | hq0
        · exact hg g0 hg0 q1 hq1 q2 hq0
        · rw [hq0]
          exact hfresh g (List.mem_cons_self g gs) q1 hq1
      · exact ih (fun g0 hg0 => hfresh g0 (List.mem_cons_of_mem g hg0)) hgs

theorem buildCombs_props {α : Type _} [DecidableEq α] (squid_ids : Nat → α)
    (bolo_ids : Nat → Int) (n : Nat) :
    (∀ g ∈ buildCombs squid_ids bolo_ids n, ∀ q ∈ g.2, q.2 < n)
    ∧ (buildCombs squid_ids bolo_ids n).Pairwise
        (fun g1 g2 => ∀ q1 ∈ g1.2, ∀ q2 ∈ g2.2, q1.2 ≠ q2.2) := by
  induction n with
  | zero =>
    constructor
    · intro g hg
      simp [buildCombs] at hg
    · simp [buildCombs]
  | succ n ih =>
    obtain ⟨hlt, hpw⟩ := ih
    have hstep : buildCombs squid_ids bolo_ids (n + 1)
        = insertComb (squid_ids n) (bolo_ids n, n) (buildCombs squid_ids bolo_ids n) := by
      unfold buildCombs
      rw [List.range_succ, List.foldl_append, List.foldl_cons, List.foldl_nil]
    rw [hstep]
    constructor
    · intro g hg q hq
      rcases insertComb_snd_sub _ _ _ g hg q hq with ⟨g0, hg0, hq0⟩ | hq0
      · exact Nat.lt_succ_of_lt (hlt g0 hg0 q hq0)
      · rw [hq0]
        exact Nat.lt_succ_self n
    · exact insertComb_pairwise _ _ _ (fun g hg q hq => Nat.ne_of_lt (hlt g hg q hq)) hpw

/-- C1 (amended): `inject_crosstalk_inside_SQUID` is invariant under any
permutation of the SQUID iteration order, because the `combs` groups carry
pairwise disjoint detector indices and each SQUID's loops read and write
only its own detectors.  (The within-SQUID channel order, and the SQUID
order of `inject_crosstalk_SQUID_to_SQUID`, do change the result: see the
counterexample.) -/
theorem C1_inside_SQUID_order_invariance {α : Type _} [DecidableEq α]
    (squid_ids : Nat → α) (bolo_ids : Nat → Int) (n radius beta : Nat)
    (amp : Nat → ℚ) (ts : Nat → List ℚ) (l2 : List (α × List (Int × Nat)))
    (hperm : (buildCombs squid_ids bolo_ids n).Perm l2) (i : Nat) :
    injectInsideGroups radius beta amp l2 ts i
      = inject_crosstalk_inside_SQUID squid_ids bolo_ids n radius beta amp ts i := by
  unfold inject_crosstalk_inside_SQUID injectInsideGroups
  have hpw := (buildCombs_props squid_ids bolo_ids n).2
  have hsymm : Symmetric (fun (g1 g2 : α × List (Int × Nat)) =>
      ∀ q1 ∈ g1.2, ∀ q2 ∈ g2.2, q1.2 ≠ q2.2) :=
    fun g1 g2 h q1 hq1 q2 hq2 => (h q2 hq2 q1 hq1).symm
  have comm : ∀ g1 ∈ buildCombs squid_ids bolo_ids n,
      ∀ g2 ∈ buildCombs squid_ids bolo_ids n, ∀ z : Nat → List ℚ,
      squidInner radius beta amp g2.2 (squidInner radius beta amp g1.2 z)
        = squidInner radius beta amp g1.2 (squidInner radius beta amp g2.2 z) := by
    intro g1 h1 g2 h2 z
    by_cases heq : g1 = g2
    · rw [heq]
    · exact squidInner_comm radius beta amp g1.2 g2.2 z (hpw.forall hsymm h1 h2 heq)
  exact congrFun (hperm.foldl_eq' comm ts).symm i

/-- Witness for the amended C1: three detectors, SQUIDs `a, a, b`, with
the two groups processed in swapped order. -/
theorem C1_inside_SQUID_order_invariance_witness :
    injectInsideGroups 1 2 (fun _ => 1)
        [("b", [((2 : Int), (2 : Nat))]), ("a", [(0, 0), (1, 1)])] (fun _ => [1]) 0
      = inject_crosstalk_inside_SQUID (fun b => if b < 2 then "a" else "b")
          (fun b => (b : Int)) 3 1 2 (fun _ => 1) (fun _ => [1]) 0 :=
  C1_inside_SQUID_order_invariance (fun b => if b < 2 then "a" else "b")
    (fun b => (b : Int)) 3 1 2 (fun _ => 1) (fun _ => [1])
    [("b", [((2 : Int), (2 : Nat))]), ("a", [(0, 0), (1, 1)])] (by decide) 0

/-- Counterexample for C1 as stated: with two single-sample detectors
(both `[1]`), unit leakage amplitudes, `radius = 1`, `beta = 2`:
(a) the code's result `[3]` at detector 1 differs from the snapshot
semantics' `[2]` -- the second addition reads the already-contaminated
detector 0;
(b) reversing the channel order within the SQUID changes the result from
`[3]` to `[2]`;
(c) for `inject_crosstalk_SQUID_to_SQUID` (attenuation 1), reversing the
SQUID order changes detector 1's result from `[3]` to `[2]`. -/
theorem C1_counterexample :
    inject_crosstalk_inside_SQUID (fun _ => "a") (fun b => (b : Int)) 2 1 2
        (fun _ => 1) (fun _ => [1]) 1 = [3]
    ∧ injectInsideGroups_snapshot 1 2 (fun _ => 1)
        (buildCombs (fun _ => "a") (fun b => (b : Int)) 2) (fun _ => [1]) 1 = [2]
    ∧ injectInsideGroups 1 2 (fun _ => 1)
        [("a", [((0 : Int), (0 : Nat)), (1, 1)])] (fun _ => [1]) 1 = [3]
    ∧ injectInsideGroups 1 2 (fun _ => 1)
        [("a", [((1 : Int), (1 : Nat)), (0, 0)])] (fun _ => [1]) 1 = [2]
    ∧ inject_crosstalk_SQUID_to_SQUID (fun b => if b = 0 then "a" else "b")
        (fun b => (b : Int)) 2 1 (fun _ => 1) (fun _ => [1]) 1 = [3]
    ∧ injectS2SGroups 1 (fun _ => 1)
        [("b", [((1 : Int), (1 : Nat))]), ("a", [(0, 0)])] (fun _ => [1]) 1 = [2] := by
  refine ⟨?_, ?_, ?_, ?_, ?_, ?_⟩ <;>
    norm_num [inject_crosstalk_inside_SQUID, injectInsideGroups, injectInsideGroups_snapshot,
      inject_crosstalk_SQUID_to_SQUID, injectS2SGroups, buildCombs, insertComb, squidInner,
      innerStep, addScaled, Function.update, List.range_succ,
      (by decide : ¬ ("a" : String) = "b"), (by decide : ¬ ("b" : String) = "a")]

/-! ### `modify_beam_offsets` (`systematics.py`)

Differential pointing: draw per-pair magnitudes and angles, then perform
the four in-place numpy slice updates `xpos[::2] += rhox`,
`xpos[1::2] += -rhox`, `ypos[::2] += rhoy`, `ypos[1::2] += -rhoy`.
An in-place `slice += a` follows numpy broadcasting: it succeeds iff
`len(a)` equals the slice length or `len(a) = 1` (the single element is
broadcast), and raises otherwise, leaving the array untouched.  The
normal/uniform draws (`rho`, scaled by `arcsecond2rad` inside the normal
call, and `theta` in degrees) and the float `cos`/`sin` are oracles. -/

/-- In-place `l[par::2] += a` (stride-2 slice starting at `par ∈ {0,1}`)
with numpy broadcasting; `none` models the `ValueError`. -/
def sliceAddBroadcast (par : Nat) (l a : List ℚ) : Option (List ℚ) :=
  if a.length = (l.length - par + 1) / 2 ∨ a.length = 1 then
    some ((List.range l.length).map (fun i =>
      if i % 2 = par then
        l.getD i 0 + (if a.length = 1 then a.getD 0 0 else a.getD (i / 2) 0)
      else l.getD i 0))
  else none

/-- `modify_beam_offsets`: the length assert, `npair = int(len/2)`, the
drawn displacement components `rhox = rho/2*cos(theta)`,
`rhoy = rho/2*sin(theta)`, then the four slice updates in source order
(failing fast, like the Python exceptions). -/
def modify_beam_offsets (xpos ypos : List ℚ) (rhoDraw thetaDraw : Nat → ℚ)
    (deg2radQ : ℚ) (cosF sinF : ℚ → ℚ) : Option (List ℚ × List ℚ) :=
  if xpos.length = ypos.length then
    match sliceAddBroadcast 0 xpos ((List.range (xpos.length / 2)).map
        (fun k => rhoDraw k / 2 * cosF (thetaDraw k * deg2radQ))) with
    | none => none
    | some x1 =>
      match sliceAddBroadcast 1 x1 (((List.range (xpos.length / 2)).map
          (fun k => rhoDraw k / 2 * cosF (thetaDraw k * deg2radQ))).map Neg.neg) with
      | none => none
      | some x2 =>
        match sliceAddBroadcast 0 ypos ((List.range (xpos.length / 2)).map
            (fun k => rhoDraw k / 2 * sinF (thetaDraw k * deg2radQ))) with
        | none => none
        | some y1 =>
          match sliceAddBroadcast 1 y1 (((List.range (xpos.length / 2)).map
              (fun k => rhoDraw k / 2 * sinF (thetaDraw k * deg2radQ))).map Neg.neg) with
          | none => none
          | some y2 => some (x2, y2)
  else none

theorem getD_range_map (n : Nat) (f : Nat → ℚ) (i : Nat) (h : i < n) :
    ((List.range n).map f).getD i 0 = f i := by
  rw [List.getD_eq_getElem?_getD, List.getElem?_map, List.getElem?_range h]
  rfl

theorem sliceAdd_some (par : Nat) (l a : List ℚ)
    (h : a.length = (l.length - par + 1) / 2 ∨ a.length = 1) :
    sliceAddBroadcast par l a = some ((List.range l.length).map (fun i =>
      if i % 2 = par then
        l.getD i 0 + (if a.length = 1 then a.getD 0 0 else a.getD (i / 2) 0)
      else l.getD i 0)) := by
  unfold sliceAddBroadcast
  rw [if_pos h]

theorem sliceAdd_length (par : Nat) (l a r : List ℚ)
    (h : sliceAddBroadcast par l a = some r) : r.length = l.length := by
  unfold sliceAddBroadcast at h
  by_cases hv : a.length = (l.length - par + 1) / 2 ∨ a.length = 1
  · rw [if_pos hv] at h
    rw [← Option.some.inj h, List.length_map, List.length_range]
  · rw [if_neg hv] at h
    exact absurd h (by simp)

theorem getD_map_neg (a : List ℚ) (j : Nat) :
    (a.map Neg.neg).getD j 0 = -(a.getD j 0) := by
  rw [List.getD_eq_getElem?_getD, List.getD_eq_getElem?_getD, List.getElem?_map]
  cases a[j]? with
  | none => simp
  | some v => simp

/-- Effect of the `[::2] += a` / `[1::2] += -a` pair on an even-length
array: entry `2k` gains `a[k]`, entry `2k+1` loses `a[k]`. -/
theorem twoSliceAdd_getD (l a : List ℚ) (m k : Nat) (hl : l.length = 2 * m)
    (ha : a.length = m) (hk : k < m) (r1 r2 : List ℚ)
    (h1 : sliceAddBroadcast 0 l a = some r1)
    (h2 : sliceAddBroadcast 1 r1 (a.map Neg.neg) = some r2) :
    r2.getD (2 * k) 0 = l.getD (2 * k) 0 + a.getD k 0
    ∧ r2.getD (2 * k + 1) 0 = l.getD (2 * k + 1) 0 - a.getD k 0 := by
  have hr1len : r1.length = l.length := sliceAdd_length 0 l a r1 h1
  have e1 : r1 = (List.range l.length).map (fun i =>
      if i % 2 = 0 then l.getD i 0 + (if a.length = 1 then a.getD 0 0 else a.getD (i / 2) 0)
      else l.getD i 0) := by
    rw [sliceAdd_some 0 l a (Or.inl (by omega))] at h1
    exact (Option.some.inj h1).symm
  have e2 : r2 = (List.range r1.length).map (fun i =>
      if i % 2 = 1 then
        r1.getD i 0 + (if (a.map Neg.neg).length = 1 then (a.map Neg.neg).getD 0 0
          else (a.map Neg.neg).getD (i / 2) 0)
      else r1.getD i 0) := by
    rw [sliceAdd_some 1 r1 (a.map Neg.neg) (Or.inl (by rw [List.length_map]; omega))] at h2
    exact (Option.some.inj h2).symm
  have haddE : (if a.length = 1 then a.getD 0 0 else a.getD (2 * k / 2) 0) = a.getD k 0 := by
    split_ifs with hone
    · rw [show k = 0 from by omega]
    · rw [show 2 * k / 2 = k from by omega]
  have haddO : (if (a.map Neg.neg).length = 1 then (a.map Neg.neg).getD 0 0
      else (a.map Neg.neg).getD ((2 * k + 1) / 2) 0) = -(a.getD k 0) := by
    rw [List.length_map]
    split_ifs with hone
    · rw [show k = 0 from by omega, getD_map_neg]
    · rw [show (2 * k + 1) / 2 = k from by omega, getD_map_neg]
  have hv1 : r1.getD (2 * k) 0 = l.getD (2 * k) 0 + a.getD k 0 := by
    rw [e1, getD_range_map _ _ _ (by omega), if_pos (by omega), haddE]
  have hv1o : r1.getD (2 * k + 1) 0 = l.getD (2 * k + 1) 0 := by
    rw [e1, getD_range_map _ _ _ (by omega), if_neg (by omega)]
  constructor
  · rw [e2, getD_range_map _ _ _ (by omega), if_neg (by omega), hv1]
  · rw [e2, getD_range_map _ _ _ (by omega), if_pos (by omega), hv1o, haddO]
    ring

/-- C8: for equal even-length offset arrays, `modify_beam_offsets`
succeeds and displaces each consecutive (even-index top, odd-index
bottom) detector pair exactly antisymmetrically: the top detector's x
(resp. y) offset changes by `rho/2*cos(theta)` (resp. `rho/2*sin(theta)`)
and the bottom detector's by exactly the negation, for every pair `k`
and every draw. -/
theorem C8_pair_antisymmetry (xpos ypos : List ℚ) (rhoDraw thetaDraw : Nat → ℚ)
    (deg2radQ : ℚ) (cosF sinF : ℚ → ℚ) (m k : Nat)
    (hx : xpos.length = 2 * m) (hy : ypos.length = 2 * m) (hk : k < m) :
    (modify_beam_offsets xpos ypos rhoDraw thetaDraw deg2radQ cosF sinF).map
      (fun r => (r.1.getD (2 * k) 0 - xpos.getD (2 * k) 0,
                 r.1.getD (2 * k + 1) 0 - xpos.getD (2 * k + 1) 0,
                 r.2.getD (2 * k) 0 - ypos.getD (2 * k) 0,
                 r.2.getD (2 * k + 1) 0 - ypos.getD (2 * k + 1) 0))
    = some (rhoDraw k / 2 * cosF (thetaDraw k * deg2radQ),
            -(rhoDraw k / 2 * cosF (thetaDraw k * deg2radQ)),
            rhoDraw k / 2 * sinF (thetaDraw k * deg2radQ),
            -(rhoDraw k / 2 * sinF (thetaDraw k * deg2radQ))) := by
  have haxlen : ((List.range (xpos.length / 2)).map
      (fun k => rhoDraw k / 2 * cosF (thetaDraw k * deg2radQ))).length = m := by
    rw [List.length_map, List.length_range]
    omega
  have haylen : ((List.range (xpos.length / 2)).map
      (fun k => rhoDraw k / 2 * sinF (thetaDraw k * deg2radQ))).length = m := by
    rw [List.length_map, List.length_range]
    omega
  obtain ⟨x1, hx1⟩ : ∃ r, sliceAddBroadcast 0 xpos ((List.range (xpos.length / 2)).map
      (fun k => rhoDraw k / 2 * cosF (thetaDraw k * deg2radQ))) = some r :=
    ⟨_, sliceAdd_some _ _ _ (Or.inl (by rw [haxlen]; omega))⟩
  have hx1len : x1.length = xpos.length := sliceAdd_length _ _ _ _ hx1
  obtain ⟨x2, hx2⟩ : ∃ r, sliceAddBroadcast 1 x1 (((List.range (xpos.length / 2)).map
      (fun k => rhoDraw k / 2 * cosF (thetaDraw k * deg2radQ))).map Neg.neg) = some r :=
    ⟨_, sliceAdd_some _ _ _ (Or.inl (by rw [List.length_map, haxlen]; omega))⟩
  obtain ⟨y1, hy1⟩ : ∃ r, sliceAddBroadcast 0 ypos ((List.range (xpos.length / 2)).map
      (fun k => rhoDraw k / 2 * sinF (thetaDraw k * deg2radQ))) = some r :=
    ⟨_, sliceAdd_some _ _ _ (Or.inl (by rw [haylen]; omega))⟩
  have hy1len : y1.length = ypos.length := sliceAdd_length _ _ _ _ hy1
  obtain ⟨y2, hy2⟩ : ∃ r, sliceAddBroadcast 1 y1 (((List.range (xpos.length / 2)).map
      (fun k => rhoDraw k / 2 * sinF (thetaDraw k * deg2radQ))).map Neg.neg) = some r :=
    ⟨_, sliceAdd_some _ _ _ (Or.inl (by rw [List.length_map, haylen]; omega))⟩
  have hred : modify_beam_offsets xpos ypos rhoDraw thetaDraw deg2radQ cosF sinF
      = some (x2, y2) := by
    unfold modify_beam_offsets
    rw [if_pos (by omega : xpos.length = ypos.length), hx1]
    dsimp only
    rw [hx2]
    dsimp only
    rw [hy1]
    dsimp only
    rw [hy2]
  have hX := twoSliceAdd_getD xpos _ m k hx haxlen hk x1 x2 hx1 hx2
  have hY := twoSliceAdd_getD ypos _ m k hy haylen hk y1 y2 hy1 hy2
  have hAXk : ((List.range (xpos.length / 2)).map
      (fun k => rhoDraw k / 2 * cosF (thetaDraw k * deg2radQ))).getD k 0
      = rhoDraw k / 2 * cosF (thetaDraw k * deg2radQ) :=
    getD_range_map _ _ _ (by omega)
  have hAYk : ((List.range (xpos.length / 2)).map
      (fun k => rhoDraw k / 2 * sinF (thetaDraw k * deg2radQ))).getD k 0
      = rhoDraw k / 2 * sinF (thetaDraw k * deg2radQ) :=
    getD_range_map _ _ _ (by omega)
  rw [hred, Option.map_some']
  refine congrArg some ?_
  rw [hX.1, hX.2, hY.1, hY.2, hAXk, hAYk]
  simp only [Prod.mk.injEq]
  refine ⟨by ring, by ring, by ring, by ring⟩

theorem C8_pair_antisymmetry_witness :
    (modify_beam_offsets [(1:ℚ), 2] [3, 4] (fun _ => 2) (fun _ => 0) 0
        (fun _ => 1) (fun _ => 0)).map
      (fun r => (r.1.getD (2 * 0) 0 - [(1:ℚ), 2].getD (2 * 0) 0,
                 r.1.getD (2 * 0 + 1) 0 - [(1:ℚ), 2].getD (2 * 0 + 1) 0,
                 r.2.getD (2 * 0) 0 - [(3:ℚ), 4].getD (2 * 0) 0,
                 r.2.getD (2 * 0 + 1) 0 - [(3:ℚ), 4].getD (2 * 0 + 1) 0))
    = some ((2:ℚ) / 2 * 1, -((2:ℚ) / 2 * 1), (2:ℚ) / 2 * 0, -((2:ℚ) / 2 * 0)) :=
  C8_pair_antisymmetry [1, 2] [3, 4] (fun _ => 2) (fun _ => 0) 0
    (fun _ => 1) (fun _ => 0) 1 0 rfl rfl (by decide)

/-- C10 (amended): for equal ODD-length arrays of length `2*m+1` with
`m ≠ 1`, the first slice assignment `xpos[::2] += rhox` fails numpy
broadcasting (the even slice has `m+1` entries but `rhox` has
`npair = m`), so `modify_beam_offsets` raises and returns no modified
arrays.  (For length 3, `m = 1`, the single drawn value broadcasts and
the call silently succeeds: see the counterexample.) -/
theorem C10_odd_length_error (xpos ypos : List ℚ) (rhoDraw thetaDraw : Nat → ℚ)
    (deg2radQ : ℚ) (cosF sinF : ℚ → ℚ) (m : Nat)
    (hx : xpos.length = 2 * m + 1) (hy : ypos.length = 2 * m + 1) (hm : m ≠ 1) :
    modify_beam_offsets xpos ypos rhoDraw thetaDraw deg2radQ cosF sinF = none := by
  have h0 : sliceAddBroadcast 0 xpos ((List.range (xpos.length / 2)).map
      (fun k => rhoDraw k / 2 * cosF (thetaDraw k * deg2radQ))) = none := by
    unfold sliceAddBroadcast
    rw [if_neg]
    simp only [List.length_map, List.length_range]
    omega
  unfold modify_beam_offsets
  rw [if_pos (by omega : xpos.length = ypos.length), h0]

theorem C10_odd_length_error_witness :
    modify_beam_offsets [(1:ℚ), 1, 1, 1, 1] [1, 1, 1, 1, 1] (fun _ => 2)
      (fun _ => 0) 0 (fun _ => 1) (fun _ => 0) = none :=
  C10_odd_length_error [1, 1, 1, 1, 1] [1, 1, 1, 1, 1] (fun _ => 2)
    (fun _ => 0) 0 (fun _ => 1) (fun _ => 0) 2 rfl rfl (by decide)

/-- C10 counterexample: for length-3 arrays (odd), the claim's predicted
error does NOT occur.  `npair = 1`, so `rhox` has a single entry, which
numpy broadcasts over the 2-element even slice; the call succeeds and
modifies the x offsets from `[1, 1, 1]` to `[2, 0, 2]`. -/
theorem C10_counterexample :
    modify_beam_offsets [(1:ℚ), 1, 1] [1, 1, 1] (fun _ => 2) (fun _ => 0) 0
        (fun _ => 1) (fun _ => 0) = some ([2, 0, 2], [1, 1, 1])
    ∧ [(2:ℚ), 0, 2] ≠ [(1:ℚ), 1, 1] := by
  constructor
  · norm_num [modify_beam_offsets, sliceAddBroadcast, List.range_succ]
  · simp

/-! ### `convolve_focalplane` (scanning_strategy.py lines 558-625)

`fp_rad_bins = int(fp_radius_amin*2/resol_amin)` is a healpy-derived
integer radius `r`; the footprint mask is `fp_map = (x^2 + y^2 < r^2)`
over the `(2r+1) x (2r+1)` grid centred at the origin, and
`bolo_per_pix = nbolos / sum(fp_map)`.  For each boresight pixel `n`
with `bore_nhits[n] != 0`, healpy's `ang2pix` sends each of the
`sum(fp_map)` angular offsets `j` to a target sky pixel (modelled by the
oracle `target n j`; the code comments note these targets are not
necessarily unique), and the inlined C loop does
`focalplane_nhits[pix] += bore_nhits[n] * bolo_per_pix * boost` for each
of them in turn. -/

/-- Number of `True` cells of `fp_map`: grid points `(a - r, b - r)` for
`a, b < 2r+1` with `x^2 + y^2 < r^2`. -/
def fpPixelCount (r : Nat) : Nat :=
  ((List.range (2 * r + 1)).map (fun a =>
    ((List.range (2 * r + 1)).filter
      (fun b => decide (((a : Int) - r) ^ 2 + ((b : Int) - r) ^ 2 < (r : Int) ^ 2))).length)).sum

/-- `convolve_focalplane`: accumulate
`bore n * (nbolos / sum(fp_map)) * boost` onto `target n j` for every
nonzero boresight pixel `n` and every footprint offset `j`, starting
from the zero map. -/
def convolve_focalplane (bore : Nat → ℚ) (npix : Nat) (nbolos boost : ℚ)
    (r : Nat) (target : Nat → Nat → Nat) : Nat → ℚ :=
  ((List.range npix).filter (fun n => decide (bore n ≠ 0))).foldl
    (fun acc n => (List.range (fpPixelCount r)).foldl
      (fun acc2 j => Function.update acc2 (target n j)
        (acc2 (target n j) + bore n * (nbolos / (fpPixelCount r : ℚ)) * boost)) acc)
    (fun _ => 0)

theorem list_sum_map_range (n : Nat) (f : Nat → ℚ) :
    ((List.range n).map f).sum = ∑ i in Finset.range n, f i := by
  induction n with
  | zero => simp
  | succ n ih =>
    rw [List.range_succ, List.map_append, List.sum_append, Finset.sum_range_succ, ih]
    simp

theorem sum_update_add (f : Nat → ℚ) (i : Nat) (c : ℚ) (npix : Nat) (hi : i < npix) :
    ∑ p in Finset.range npix, Function.update f i (f i + c) p
      = (∑ p in Finset.range npix, f p) + c := by
  have hmem : i ∈ Finset.range npix := Finset.mem_range.mpr hi
  rw [Finset.sum_update_of_mem hmem, Finset.sdiff_singleton_eq_erase]
  have h2 := Finset.add_sum_erase (Finset.range npix) f hmem
  linarith

/-- A fold of `+=` updates adds the sum of the addends to the total,
whatever the target indices (also when they repeat). -/
theorem sum_foldl_update (l : List Nat) (tgt : Nat → Nat) (c : Nat → ℚ)
    (npix : Nat) (h : ∀ a ∈ l, tgt a < npix) (acc : Nat → ℚ) :
    ∑ p in Finset.range npix,
      (l.foldl (fun acc2 j => Function.update acc2 (tgt j) (acc2 (tgt j) + c j)) acc) p
      = (∑ p in Finset.range npix, acc p) + (l.map c).sum := by
  induction l generalizing acc with
  | nil => simp
  | cons a t ih =>
    rw [List.foldl_cons, ih (fun x hx => h x (List.mem_cons_of_mem a hx)),
      sum_update_add acc (tgt a) (c a) npix (h a (List.mem_cons_self a t)),
      List.map_cons, List.sum_cons]
    ring

theorem sum_outer_fold (l : List Nat) (c : Nat → ℚ) (Nfp npix : Nat)
    (target : Nat → Nat → Nat) (h : ∀ n ∈ l, ∀ j, j < Nfp → target n j < npix)
    (acc : Nat → ℚ) :
    ∑ p in Finset.range npix,
      (l.foldl (fun a n => (List.range Nfp).foldl
        (fun a2 j => Function.update a2 (target n j) (a2 (target n j) + c n)) a) acc) p
      = (∑ p in Finset.range npix, acc p) + (l.map (fun n => (Nfp : ℚ) * c n)).sum := by
  induction l generalizing acc with
  | nil => simp
  | cons a t ih =>
    rw [List.foldl_cons, ih (fun x hx => h x (List.mem_cons_of_mem a hx)),
      sum_foldl_update (List.range Nfp) (target a) (fun _ => c a) npix
        (fun j hj => h a (List.mem_cons_self a t) j (List.mem_range.mp hj)) acc,
      List.map_cons, List.sum_cons]
    simp only [List.map_const', List.length_range, List.sum_replicate, smul_eq_mul]
    ring

theorem sum_map_filter_ne (l : List Nat) (f : Nat → ℚ) (p : Nat → Bool)
    (h : ∀ n ∈ l, p n = false → f n = 0) :
    ((l.filter p).map f).sum = (l.map f).sum := by
  induction l with
  | nil => rfl
  | cons a t ih =>
    rw [List.filter_cons]
    split_ifs with hp
    · rw [List.map_cons, List.sum_cons, List.map_cons, List.sum_cons,
        ih (fun x hx => h x (List.mem_cons_of_mem a hx))]
    · rw [List.map_cons, List.sum_cons,
        ih (fun x hx => h x (List.mem_cons_of_mem a hx)),
        h a (List.mem_cons_self a t) (by simpa using hp)]
      ring

/-- Total hit mass of `convolve_focalplane`: whatever the target oracle
(collisions included), the `+=` accumulation makes the total equal
`boost * nbolos * sum(bore)`, given in-range targets and a nonempty
footprint. -/
theorem convolve_focalplane_sum (bore : Nat → ℚ) (npix : Nat) (nbolos boost : ℚ)
    (r : Nat) (target : Nat → Nat → Nat)
    (htar : ∀ n j, n < npix → j < fpPixelCount r → target n j < npix)
    (hNfp : 0 < fpPixelCount r) :
    ∑ p in Finset.range npix, convolve_focalplane bore npix nbolos boost r target p
      = boost * nbolos * ∑ n in Finset.range npix, bore n := by
  have hNfpQ : ((fpPixelCount r : ℚ)) ≠ 0 := Nat.cast_ne_zero.mpr hNfp.ne'
  unfold convolve_focalplane
  have key := sum_outer_fold ((List.range npix).filter (fun n => decide (bore n ≠ 0)))
    (fun n => bore n * (nbolos / (fpPixelCount r : ℚ)) * boost)
    (fpPixelCount r) npix target
    (fun n hn j hj => htar n j (List.mem_range.mp (List.mem_filter.mp hn).1) hj)
    (fun _ => 0)
  simp only [] at key
  rw [key, Finset.sum_const_zero, zero_add]
  have hflt := sum_map_filter_ne (List.range npix)
    (fun n => (fpPixelCount r : ℚ) * (bore n * (nbolos / (fpPixelCount r : ℚ)) * boost))
    (fun n => decide (bore n ≠ 0))
    (fun n _ hfalse => by
      have hb : bore n = 0 := by simpa using hfalse
      simp only []
      rw [hb]
      ring)
  simp only [] at hflt
  rw [hflt, list_sum_map_range, Finset.mul_sum]
  refine Finset.sum_congr rfl (fun n _ => ?_)
  field_simp
  ring

/-- C7 (amended): for every hit map, `nbolos`, footprint radius, boost
and target oracle (with in-range targets and a nonempty footprint), the
total hit mass of `convolve_focalplane` equals
`boost * nbolos * sum(input hits)` EXACTLY — also when several offsets
collide on the same target pixel, because the C loop accumulates with
`+=` and repeated targets just receive several addends whose total is
unchanged. -/
theorem C7_hit_conservation (bore : Nat → ℚ) (npix : Nat) (nbolos boost : ℚ)
    (r : Nat) (target : Nat → Nat → Nat)
    (htar : ∀ n j, n < npix → j < fpPixelCount r → target n j < npix)
    (hNfp : 0 < fpPixelCount r) :
    ∑ p in Finset.range npix, convolve_focalplane bore npix nbolos boost r target p
      = boost * nbolos * ∑ n in Finset.range npix, bore n :=
  convolve_focalplane_sum bore npix nbolos boost r target htar hNfp

theorem C7_hit_conservation_witness :
    (∀ n j : Nat, n < 2 → j < fpPixelCount 2 → (fun (_ _ : Nat) => 0) n j < 2)
    ∧ 0 < fpPixelCount 2
    ∧ ∑ p in Finset.range 2,
        convolve_focalplane (fun n => if n = 0 then 1 else 0) 2 9 1 2
          (fun _ _ => 0) p
      = 1 * 9 * ∑ n in Finset.range 2, (fun n => if n = 0 then (1:ℚ) else 0) n :=
  ⟨fun _ _ _ _ => Nat.zero_lt_two, by decide,
    C7_hit_conservation (fun n => if n = 0 then 1 else 0) 2 9 1 2 (fun _ _ => 0)
      (fun _ _ _ _ => Nat.zero_lt_two) (by decide)⟩

/-- C7 counterexample to the original claim: with `npix = 2`, radius 2
(footprint of 9 offsets), `nbolos = 9`, `boost = 1`, a single nonzero
boresight pixel and a target oracle sending ALL nine offsets to the same
sky pixel 0 (maximal collision), the total is still exactly
`boost * nbolos * sum(input)`: collisions do NOT break exact
conservation, so "otherwise conservation does not hold exactly" is
false. -/
theorem C7_counterexample :
    fpPixelCount 2 = 9
    ∧ (fun (_ _ : Nat) => (0:Nat)) 0 0 = (fun (_ _ : Nat) => (0:Nat)) 0 1
    ∧ ∑ p in Finset.range 2,
        convolve_focalplane (fun n => if n = 1 then 1 else 0) 2 9 1 2
          (fun _ _ => 0) p
      = 1 * 9 * ∑ n in Finset.range 2, (fun n => if n = 1 then (1:ℚ) else 0) n :=
  ⟨by decide, rfl,
    convolve_focalplane_sum (fun n => if n = 1 then 1 else 0) 2 9 1 2 (fun _ _ => 0)
      (fun _ _ _ _ => Nat.zero_lt_two) (by decide)⟩

/-! ### `ScanningStrategy.__init__` / `define_boundary_of_scan`
(scanning_strategy.py lines 29-177)

The constructor stores its scalar arguments and then calls
`define_boundary_of_scan()` unconditionally, before any scan array is
allocated (`run_one_scan` is a separate later call).  That method sets
the twelve-slot boundary lists when `name_strategy == 'deep_patch'`
(case-sensitive string comparison) and otherwise raises `ValueError`,
which propagates out of the constructor.  The raise is modelled as
`Except.error` carrying the concatenated message string. -/

structure ScanBoundary where
  elevation : List ℚ
  az_min : List ℚ
  az_max : List ℚ
  begin_LST : List String
  end_LST : List String
  ra_mid : ℚ
  dec_mid : ℚ
  deriving Repr, DecidableEq

def define_boundary_of_scan (name_strategy : String) : Except String ScanBoundary :=
  if name_strategy = "deep_patch" then
    Except.ok
      { elevation := [30.0, 45.5226, 47.7448, 49.967,
                      52.1892, 54.4114, 56.6336, 58.8558,
                      61.078, 63.3002, 65.5226, 35.2126]
        az_min := [134.2263, 162.3532, 162.3532, 162.3532,
                   162.3532, 162.3532, 162.3532, 162.3532,
                   162.3532, 162.3532, 162.3532, 204.7929]
        az_max := [154.2263, 197.3532, 197.3532, 197.3532,
                   197.3532, 197.3532, 197.3532, 197.3532,
                   197.3532, 197.3532, 197.3532, 224.7929]
        begin_LST := ["17:07:54.84", "22:00:21.76", "22:00:21.76",
                      "22:00:21.76", "22:00:21.76", "22:00:21.76",
                      "22:00:21.76", "22:00:21.76", "22:00:21.76",
                      "22:00:21.76", "22:00:21.76", "2:01:01.19"]
        end_LST := ["22:00:21.76", "02:01:01.19", "02:01:01.19",
                    "02:01:01.19", "02:01:01.19", "02:01:01.19",
                    "02:01:01.19", "02:01:01.19", "02:01:01.19",
                    "02:01:01.19", "02:01:01.19", "6:53:29.11"]
        ra_mid := 0
        dec_mid := -57.5 }
  else
    Except.error ("Only name_strategy = deep_patch is currently available. "
      ++ "For a custom usage (advanced users), modify this routine.")

/-- The constructor: record the scalar configuration, then run
`define_boundary_of_scan`; its `ValueError` escapes the constructor, so
a `ScanningStrategy` value exists only for an accepted name. -/
def ScanningStrategy_init (nces : Nat) (start_date : String)
    (name_strategy : String) (sampling_freq sky_speed : ℚ) :
    Except String (Nat × String × ℚ × ℚ × ScanBoundary) :=
  (define_boundary_of_scan name_strategy).map
    (fun b => (nces, start_date, sampling_freq, sky_speed, b))

/-- C6: any strategy name other than "deep_patch" (case-sensitively)
makes construction fail with the configuration `ValueError` (no object,
hence no scan arrays, is produced); name "deep_patch" constructs
successfully with all five boundary lists holding exactly 12 observation
slots. -/
theorem C6_strategy_name_fatal (nces : Nat) (sd ns : String) (sf ss : ℚ) :
    (ns ≠ "deep_patch" → ScanningStrategy_init nces sd ns sf ss
      = Except.error ("Only name_strategy = deep_patch is currently available. "
          ++ "For a custom usage (advanced users), modify this routine."))
    ∧ ∃ b, ScanningStrategy_init nces sd "deep_patch" sf ss
        = Except.ok (nces, sd, sf, ss, b)
        ∧ b.elevation.length = 12 ∧ b.az_min.length = 12 ∧ b.az_max.length = 12
        ∧ b.begin_LST.length = 12 ∧ b.end_LST.length = 12 := by
  constructor
  · intro h
    unfold ScanningStrategy_init define_boundary_of_scan
    rw [if_neg h]
    rfl
  · unfold ScanningStrategy_init define_boundary_of_scan
    rw [if_pos rfl]
    exact ⟨_, rfl, rfl, rfl, rfl, rfl, rfl⟩

theorem C6_strategy_name_fatal_witness :
    (ScanningStrategy_init 12 "2013/1/1 00:00:00" "shallow_patch" 8 (4/10)
      = Except.error ("Only name_strategy = deep_patch is currently available. "
          ++ "For a custom usage (advanced users), modify this routine."))
    ∧ ∃ b, ScanningStrategy_init 12 "2013/1/1 00:00:00" "deep_patch" 8 (4/10)
        = Except.ok (12, "2013/1/1 00:00:00", 8, 4/10, b)
        ∧ b.elevation.length = 12 ∧ b.az_min.length = 12 ∧ b.az_max.length = 12
        ∧ b.begin_LST.length = 12 ∧ b.end_LST.length = 12 :=
  ⟨(C6_strategy_name_fatal 12 "2013/1/1 00:00:00" "shallow_patch" 8 (4/10)).1
      (by decide),
    (C6_strategy_name_fatal 12 "2013/1/1 00:00:00" "shallow_patch" 8 (4/10)).2⟩
